import Mathlib

/-!
Verification of the terminal input decoder (package `input`).

Byte strings are modelled as `List Nat` (each element a byte / code unit),
Go `uint` values as `Nat` with explicit `% 2 ^ 64` where wraparound matters,
Go `rune` (int32) as `Int` with explicit two's-complement truncation, and the
key table (a Go `map[string]KeyDownEvent`) as an association list where a
fresh insertion is consed to the front, so that the newest binding wins —
extensionally the same overwrite semantics as the Go map.
-/

namespace Input

/-- Byte strings of the wire protocol. -/
abbrev Bytes := List Nat

/-- Key symbols, one constructor per `Key*` constant of the source package.
`KeyNone` is the zero value of the Go type. -/
inductive KeySym where
  | KeyNone
  | KeyEnter | KeyTab | KeyBackspace | KeyDelete | KeyEscape | KeySpace
  | KeyUp | KeyDown | KeyLeft | KeyRight | KeyBegin
  | KeyHome | KeyEnd | KeyPgUp | KeyPgDown | KeyInsert | KeyFind | KeySelect
  | KeyF1 | KeyF2 | KeyF3 | KeyF4 | KeyF5 | KeyF6 | KeyF7 | KeyF8
  | KeyF9 | KeyF10 | KeyF11 | KeyF12 | KeyF13 | KeyF14 | KeyF15 | KeyF16
  | KeyF17 | KeyF18 | KeyF19 | KeyF20 | KeyF21 | KeyF22 | KeyF23 | KeyF24
  | KeyKp0 | KeyKp1 | KeyKp2 | KeyKp3 | KeyKp4 | KeyKp5 | KeyKp6 | KeyKp7
  | KeyKp8 | KeyKp9 | KeyKpEnter | KeyKpEqual | KeyKpMul | KeyKpPlus
  | KeyKpComma | KeyKpMinus | KeyKpPeriod | KeyKpDiv
  | KeyNumLock | KeyScrollLock | KeyPrintScreen
  | KeyLeftShift | KeyRightShift | KeyLeftCtrl | KeyRightCtrl
  | KeyLeftAlt | KeyRightAlt | KeyLeftSuper | KeyRightSuper | KeyMenu
deriving DecidableEq

/-- Modifier bits. Modelled from the spec: a bitset over Shift, Alt, Ctrl,
Meta in that order, so that the list of the 15 non-empty combinations in the
source (`Shift`, `Alt`, `Shift|Alt`, `Ctrl`, ...) is the list `1, 2, ..., 15`. -/
def Shift : Nat := 1

/-- Alt modifier bit. -/
def Alt : Nat := 2

/-- Ctrl modifier bit. -/
def Ctrl : Nat := 4

/-- Meta modifier bit. -/
def Meta : Nat := 8

/-- The Go struct `KeyDownEvent` (also reused for the payload of
`KeyUpEvent`): optional symbol, optional character (0 = unset, as in Go),
modifier bitset, repeat flag. Defaults are the Go zero values. -/
structure KeyDownEvent where
  sym : KeySym := KeySym.KeyNone
  rune : Int := 0
  mod : Nat := 0
  isRepeat : Bool := false
deriving DecidableEq

/-- The Go struct `mouse`: 0-origin coordinates (may be negative after the
wire offsets are subtracted), button code and modifier bitset. -/
structure Mouse where
  x : Int
  y : Int
  button : Nat
  mod : Nat
deriving DecidableEq

/-- The event algebra: the variants of the source package that the claims
touch. `multi` is `MultiEvent`, `unknownCsi` is `UnknownCsiEvent`. -/
inductive Event where
  | keyDown (k : KeyDownEvent)
  | keyUp (k : KeyDownEvent)
  | mouseDown (m : Mouse)
  | mouseUp (m : Mouse)
  | mouseMove (m : Mouse)
  | multi (events : List Event)
  | unknownCsi (raw : Bytes)

/-- First-match association-list lookup, used both for the Go maps of the
source (whose literal keys are distinct) and for the key table, where a new
binding is consed to the front so the newest one wins. -/
def lookupAssoc {α β : Type} [DecidableEq α] : List (α × β) → α → Option β
  | [], _ => none
  | (a, b) :: t, k => if a = k then some b else lookupAssoc t k

/-- Map-style insertion: the new binding shadows any older one. -/
def insertKey {α β : Type} (t : List (α × β)) (k : α) (v : β) : List (α × β) :=
  (k, v) :: t

/-- All keys of an association list (with multiplicity of shadowed entries). -/
def keysOf {α β : Type} (t : List (α × β)) : List α :=
  t.map Prod.fst

/-- Insert a batch of bindings, in order (later ones shadow earlier ones). -/
def insertAll {α β : Type} (t : List (α × β)) (ps : List (α × β)) : List (α × β) :=
  ps.foldl (fun acc p => insertKey acc p.1 p.2) t

theorem insertAll_eq_append {α β : Type} (ps : List (α × β)) (t : List (α × β)) :
    insertAll t ps = ps.reverse ++ t := by
  induction ps generalizing t with
  | nil => rfl
  | cons p ps ih =>
    show insertAll (insertKey t p.1 p.2) ps = (p :: ps).reverse ++ t
    rw [ih]
    simp [insertKey]

theorem lookupAssoc_append {α β : Type} [DecidableEq α] (l t : List (α × β)) (k : α) :
    lookupAssoc (l ++ t) k = ((lookupAssoc l k).rec (lookupAssoc t k) fun v => some v) := by
  induction l with
  | nil => rfl
  | cons p l ih =>
    obtain ⟨a, b⟩ := p
    by_cases h : a = k <;> simp [lookupAssoc, h, ih]

theorem lookupAssoc_eq_none_of_not_mem {α β : Type} [DecidableEq α]
    (t : List (α × β)) (k : α) (h : k ∉ keysOf t) : lookupAssoc t k = none := by
  induction t with
  | nil => rfl
  | cons p t ih =>
    simp [keysOf] at h
    simp [lookupAssoc, h.1, ih (by simp [keysOf, h.2])]
    intro hc
    exact absurd hc.symm h.1

theorem mem_keysOf_of_lookupAssoc_some {α β : Type} [DecidableEq α]
    {t : List (α × β)} {k : α} {v : β} (h : lookupAssoc t k = some v) :
    k ∈ keysOf t := by
  induction t with
  | nil => simp [lookupAssoc] at h
  | cons p t ih =>
    obtain ⟨a, b⟩ := p
    show k ∈ a :: keysOf t
    by_cases hk : a = k
    · exact hk ▸ List.mem_cons_self a _
    · simp only [lookupAssoc, if_neg hk] at h
      exact List.mem_cons_of_mem a (ih h)

theorem lookupAssoc_isSome_of_mem_keysOf {α β : Type} [DecidableEq α]
    {t : List (α × β)} {k : α} (h : k ∈ keysOf t) :
    ∃ v, lookupAssoc t k = some v := by
  induction t with
  | nil => simp [keysOf] at h
  | cons p t ih =>
    obtain ⟨a, b⟩ := p
    by_cases hk : a = k
    · exact ⟨b, by simp [lookupAssoc, hk]⟩
    · have h' : k ∈ a :: keysOf t := h
      rcases List.mem_cons.mp h' with h | h
      · exact absurd h.symm hk
      · obtain ⟨v, hv⟩ := ih h
        exact ⟨v, by simp [lookupAssoc, hk, hv]⟩

/-! ## Color-reply decoder (`xParseColor`) -/

/-- Hexadecimal digit test, as accepted by `strconv.ParseUint(s, 16, 32)`. -/
def isHexDigitB (c : Nat) : Bool :=
  (48 ≤ c && c ≤ 57) || (97 ≤ c && c ≤ 102) || (65 ≤ c && c ≤ 70)

/-- Numeric value of one hex digit byte. -/
def hexDigitVal (c : Nat) : Nat :=
  if 48 ≤ c ∧ c ≤ 57 then c - 48
  else if 97 ≤ c ∧ c ≤ 102 then c - 87
  else if 65 ≤ c ∧ c ≤ 70 then c - 55
  else 0

/-- Value of a hex digit string (most significant digit first). -/
def hexVal (s : Bytes) : Nat :=
  s.foldl (fun acc c => acc * 16 + hexDigitVal c) 0

/-- `strconv.ParseUint(s, 16, 32)` with the error discarded, as the source
does with `r, _ := strconv.ParseUint(...)`: a syntactically invalid or empty
string yields 0, a value above 32 bits is clamped to `2^32 - 1` (Go returns
the max value together with `ErrRange`). -/
def goParseUintHex (s : Bytes) : Nat :=
  if s ≠ [] ∧ s.all isHexDigitB then min (hexVal s) (2 ^ 32 - 1) else 0

/-- A 32-bit RGBA color record (`color.RGBA`), one byte per channel. -/
structure RGBA where
  r : Nat
  g : Nat
  b : Nat
  a : Nat
deriving DecidableEq

/-- `color.Black` (`color.Gray16{0}`): opaque black, one byte per channel. -/
def colorBlack : RGBA := ⟨0, 0, 0, 255⟩

/-- The bytes of the literal `rgb:`. -/
def rgbTag : Bytes := [114, 103, 98, 58]

/-- The bytes of the literal `rgba:`. -/
def rgbaTag : Bytes := [114, 103, 98, 97, 58]

/-- `xParseColor` from the source: split the payload after the `rgb:` /
`rgba:` tag on `/`, parse each part as 32-bit hex, and keep the low byte of
each component via the Go conversion `uint8(r)` (i.e. `% 256`). -/
def xParseColor (s : Bytes) : RGBA :=
  if s.take 4 = rgbTag then
    let parts := (s.drop 4).splitOn 47
    if parts.length ≠ 3 then colorBlack
    else
      ⟨goParseUintHex (parts.getD 0 []) % 256,
       goParseUintHex (parts.getD 1 []) % 256,
       goParseUintHex (parts.getD 2 []) % 256, 255⟩
  else if s.take 5 = rgbaTag then
    let parts := (s.drop 5).splitOn 47
    if parts.length ≠ 4 then colorBlack
    else
      ⟨goParseUintHex (parts.getD 0 []) % 256,
       goParseUintHex (parts.getD 1 []) % 256,
       goParseUintHex (parts.getD 2 []) % 256,
       goParseUintHex (parts.getD 3 []) % 256⟩
  else colorBlack

/-- Modelled from the spec: "take the most significant 8 bits of each"
component of 1–4 hex digits — the top byte of the component value read at
its own width of `4 * length` bits. Used only to exhibit the divergence of
`xParseColor` from the specified behavior. -/
def specMsb8 (s : Bytes) : Nat :=
  hexVal s >>> (4 * s.length - 8)

/-! ## Mouse decoders (`parseMouseButton`, SGR, X10) -/

/-- Mouse button codes, `MouseButtonNone` through `MouseButton11`; the Go
type is an `int` and the decoder does arithmetic on it, so it is kept as
`Nat` here. -/
def mouseButtonNone : Nat := 0

/-- `MouseButtonLeft`. -/
def mouseButtonLeft : Nat := 1

/-- `MouseButtonWheelUp`. -/
def mouseButtonWheelUp : Nat := 4

/-- `MouseButtonWheelRight`. -/
def mouseButtonWheelRight : Nat := 7

/-- `MouseButtonBackward`. -/
def mouseButtonBackward : Nat := 8

/-- `isWheel`: wheel buttons are `WheelUp` (4) through `WheelRight` (7). -/
def isWheel (b : Nat) : Bool :=
  if mouseButtonWheelUp ≤ b ∧ b ≤ mouseButtonWheelRight then true else false

/-- Result of `parseMouseButton` (its four named return values). -/
structure MouseButtonInfo where
  mod : Nat
  btn : Nat
  isRelease : Bool
  isMotion : Bool
deriving DecidableEq

/-- `parseMouseButton`: decompose a (non-offset) button code. The
additional-button bit 0x80 is tested first, then the wheel bit 0x40; in the
plain region the low two bits equal to 3 mean release-with-no-button.
The motion bit is ignored for wheel buttons. -/
def parseMouseButtonRegion (b : Nat) : Nat × Bool :=
  if b &&& 128 ≠ 0 then (mouseButtonBackward + (b &&& 3), false)
  else if b &&& 64 ≠ 0 then (mouseButtonWheelUp + (b &&& 3), false)
  else if b &&& 3 = 3 then (mouseButtonNone, true)
  else (mouseButtonLeft + (b &&& 3), false)

/-- `parseMouseButton`, continued: the modifier bits, the button region
selection above, and the motion bit (ignored for wheel buttons). -/
def parseMouseButton (b : Nat) : MouseButtonInfo :=
  let mod :=
    (if b &&& 8 ≠ 0 then Alt else 0) |||
    (if b &&& 16 ≠ 0 then Ctrl else 0) |||
    (if b &&& 4 ≠ 0 then Shift else 0)
  let br := parseMouseButtonRegion b
  let isMotion := b &&& 32 ≠ 0 && !(isWheel br.1)
  ⟨mod, br.1, br.2, isMotion⟩

/-- Decimal digit test, the regexp character class `\d`. -/
def isDigitB (c : Nat) : Bool := 48 ≤ c && c ≤ 57

/-- Decimal value of a digit string. -/
def decVal (ds : Bytes) : Nat :=
  ds.foldl (fun acc d => acc * 10 + (d - 48)) 0

/-- `strconv.Atoi` on a non-empty digit string with the error discarded:
the value, clamped to `MaxInt64` on overflow. -/
def goAtoi (ds : Bytes) : Nat :=
  min (decVal ds) (2 ^ 63 - 1)

/-- Split a byte string into its maximal leading run of decimal digits and
the rest (the greedy `\d+` munch). -/
def munch : Bytes → Bytes × Bytes
  | [] => ([], [])
  | c :: s =>
    if isDigitB c then
      let dr := munch s
      (c :: dr.1, dr.2)
    else ([], c :: s)

/-- Match the regexp `(\d+);(\d+);(\d+)([Mm])` at the start of the string:
three maximal digit runs separated by `;` followed by `M` or `m`. The flag
is true for the release terminator `m`. Because the three character classes
of the pattern are disjoint, greedy matching needs no backtracking, so this
is the exact anchored semantics of the source regexp. -/
def sgrMatchAt (s : Bytes) : Option (Nat × Nat × Nat × Bool) :=
  let d1 := munch s
  if d1.1 = [] then none else
  match d1.2 with
  | 59 :: s2 =>
    let d2 := munch s2
    if d2.1 = [] then none else
    match d2.2 with
    | 59 :: s3 =>
      let d3 := munch s3
      if d3.1 = [] then none else
      match d3.2 with
      | 77 :: _ => some (goAtoi d1.1, goAtoi d2.1, goAtoi d3.1, false)
      | 109 :: _ => some (goAtoi d1.1, goAtoi d2.1, goAtoi d3.1, true)
      | _ => none
    | _ => none
  | _ => none

/-- `mouseSGRRegex.FindStringSubmatch` with the three values already passed
through `strconv.Atoi`: the leftmost match of the pattern. -/
def sgrFind : Bytes → Option (Nat × Nat × Nat × Bool)
  | [] => none
  | c :: s =>
    match sgrMatchAt (c :: s) with
    | some r => some r
    | none => sgrFind s

/-- `parseSGRMouseEvent`: drop the `ESC [ <` introducer, find the SGR body
with the regexp, decompose the button, convert the 1-origin coordinates to
0-origin, and pick the variant: motion (non-wheel) → MouseMove, release
terminator on a non-wheel, non-motion button → MouseUp, otherwise
MouseDown. -/
def parseSGRMouseEvent (buf : Bytes) : Event :=
  match sgrFind (buf.drop 3) with
  | none => Event.unknownCsi buf
  | some (b, px, py, release) =>
    let pmb := parseMouseButton b
    let x : Int := (px : Int) - 1
    let y : Int := (py : Int) - 1
    if !pmb.isMotion && !(isWheel pmb.btn) && release then
      Event.mouseUp ⟨x, y, pmb.btn, pmb.mod⟩
    else if pmb.isMotion then
      Event.mouseMove ⟨x, y, pmb.btn, pmb.mod⟩
    else
      Event.mouseDown ⟨x, y, pmb.btn, pmb.mod⟩

/-- The X10 additive byte offset. -/
def x10MouseByteOffset : Nat := 32

/-- `parseX10MouseEvent`: take `buf[3:6]`, subtract the 32 offset from the
button byte only when it is at least 32 (the defensive check of the source),
always subtract 33 from the coordinate bytes, and pick the variant. The Go
code indexes `buf[3:6]` and would panic on a shorter buffer, hence the
`Option`. -/
def parseX10MouseEvent (buf : Bytes) : Option Event :=
  match buf.drop 3 with
  | b :: xb :: yb :: _ =>
    let b' := if x10MouseByteOffset ≤ b then b - x10MouseByteOffset else b
    let pmb := parseMouseButton b'
    let x : Int := (xb : Int) - x10MouseByteOffset - 1
    let y : Int := (yb : Int) - x10MouseByteOffset - 1
    some (if pmb.isMotion then Event.mouseMove ⟨x, y, pmb.btn, pmb.mod⟩
          else if pmb.isRelease then Event.mouseUp ⟨x, y, pmb.btn, pmb.mod⟩
          else Event.mouseDown ⟨x, y, pmb.btn, pmb.mod⟩)
  | _ => none

/-! ## XTerm modifyOtherKeys (`parseXTermModifyOtherKeys`) -/

/-- Two's-complement truncation of a Go `uint` to `rune` (int32), the
conversion `rune(params[2][0])` of the source. -/
def toInt32 (n : Nat) : Int :=
  let v : Nat := n % 2 ^ 32
  if v < 2 ^ 31 then (v : Int) else (v : Int) - 2 ^ 32

/-- The `modifyOtherKeys` map of the source: BS, HT, CR, ESC, DEL. Keys are
the `int` values the map is indexed with. -/
def modifyOtherKeys : List (Int × KeyDownEvent) :=
  [(8, ({ sym := KeySym.KeyBackspace } : KeyDownEvent)),
   (9, ({ sym := KeySym.KeyTab } : KeyDownEvent)),
   (13, ({ sym := KeySym.KeyEnter } : KeyDownEvent)),
   (27, ({ sym := KeySym.KeyEscape } : KeyDownEvent)),
   (127, ({ sym := KeySym.KeyBackspace } : KeyDownEvent))]

/-- `parseXTermModifyOtherKeys`: reads `params[1][0]` and `params[2][0]`
unconditionally (a short or empty group makes the Go code panic, modelled as
`none`). The modifier is `Mod(params[1][0] - 1)` — a Go `uint` subtraction
that wraps, hence the `% 2 ^ 64` — and the rune is the int32 truncation of
`params[2][0]`. A code found in `modifyOtherKeys` keeps its symbol,
otherwise the raw (truncated) rune is used. Both paths build a
`KeyDownEvent`. -/
def parseXTermModifyOtherKeys (params : List (List Nat)) : Option Event :=
  match params.get? 1, params.get? 2 with
  | some (m :: _), some (c :: _) =>
    let mod : Nat := (m + (2 ^ 64 - 1)) % 2 ^ 64
    let r : Int := toInt32 c
    match lookupAssoc modifyOtherKeys r with
    | some k => some (Event.keyDown { k with mod := mod })
    | none => some (Event.keyDown ({ sym := KeySym.KeyNone, rune := r, mod := mod } : KeyDownEvent))
  | _, _ => none

/-- The shape of `params` under which the Go code does not panic: at least
three groups, the second and third non-empty. -/
def mokPrecond (params : List (List Nat)) : Prop :=
  2 < params.length ∧ params.getD 1 [] ≠ [] ∧ params.getD 2 [] ≠ []

instance (params : List (List Nat)) : Decidable (mokPrecond params) := by
  unfold mokPrecond
  infer_instance

/-! ## Windows console key translator (`parseWin32InputKeyEvent`) -/

/-- The Windows virtual-key codes used by the `vkKeyEvent` table, with their
standard values (the external `coninput` package re-exports the Windows
constants). -/
def VK_RETURN : Nat := 0x0D

/-- `VK_OEM_4`, the left-bracket OEM key. -/
def VK_OEM_4 : Nat := 0xDB

set_option maxHeartbeats 1600000 in
/-- The `vkKeyEvent` table: virtual-key code to key event. Entries are in
source order; all keys are distinct. -/
def vkKeyEvent : List (Nat × KeyDownEvent) :=
  [(VK_RETURN, ({ sym := KeySym.KeyEnter } : KeyDownEvent)),
   (0x08, ({ sym := KeySym.KeyBackspace } : KeyDownEvent)),
   (0x09, ({ sym := KeySym.KeyTab } : KeyDownEvent)),
   (0x1B, ({ sym := KeySym.KeyEscape } : KeyDownEvent)),
   (0x20, ({ sym := KeySym.KeySpace, rune := 32 } : KeyDownEvent)),
   (0x26, ({ sym := KeySym.KeyUp } : KeyDownEvent)),
   (0x28, ({ sym := KeySym.KeyDown } : KeyDownEvent)),
   (0x27, ({ sym := KeySym.KeyRight } : KeyDownEvent)),
   (0x25, ({ sym := KeySym.KeyLeft } : KeyDownEvent)),
   (0x24, ({ sym := KeySym.KeyHome } : KeyDownEvent)),
   (0x23, ({ sym := KeySym.KeyEnd } : KeyDownEvent)),
   (0x21, ({ sym := KeySym.KeyPgUp } : KeyDownEvent)),
   (0x22, ({ sym := KeySym.KeyPgDown } : KeyDownEvent)),
   (0x2E, ({ sym := KeySym.KeyDelete } : KeyDownEvent)),
   (0x29, ({ sym := KeySym.KeySelect } : KeyDownEvent)),
   (0x2C, ({ sym := KeySym.KeyPrintScreen } : KeyDownEvent)),
   (0x2D, ({ sym := KeySym.KeyInsert } : KeyDownEvent)),
   (0x5B, ({ sym := KeySym.KeyLeftSuper } : KeyDownEvent)),
   (0x5C, ({ sym := KeySym.KeyRightSuper } : KeyDownEvent)),
   (0x5D, ({ sym := KeySym.KeyMenu } : KeyDownEvent)),
   (0x60, ({ sym := KeySym.KeyKp0 } : KeyDownEvent)),
   (0x61, ({ sym := KeySym.KeyKp1 } : KeyDownEvent)),
   (0x62, ({ sym := KeySym.KeyKp2 } : KeyDownEvent)),
   (0x63, ({ sym := KeySym.KeyKp3 } : KeyDownEvent)),
   (0x64, ({ sym := KeySym.KeyKp4 } : KeyDownEvent)),
   (0x65, ({ sym := KeySym.KeyKp5 } : KeyDownEvent)),
   (0x66, ({ sym := KeySym.KeyKp6 } : KeyDownEvent)),
   (0x67, ({ sym := KeySym.KeyKp7 } : KeyDownEvent)),
   (0x68, ({ sym := KeySym.KeyKp8 } : KeyDownEvent)),
   (0x69, ({ sym := KeySym.KeyKp9 } : KeyDownEvent)),
   (0x6A, ({ sym := KeySym.KeyKpMul } : KeyDownEvent)),
   (0x6B, ({ sym := KeySym.KeyKpPlus } : KeyDownEvent)),
   (0x6C, ({ sym := KeySym.KeyKpComma } : KeyDownEvent)),
   (0x6D, ({ sym := KeySym.KeyKpMinus } : KeyDownEvent)),
   (0x6E, ({ sym := KeySym.KeyKpPeriod } : KeyDownEvent)),
   (0x6F, ({ sym := KeySym.KeyKpDiv } : KeyDownEvent)),
   (0x70, ({ sym := KeySym.KeyF1 } : KeyDownEvent)),
   (0x71, ({ sym := KeySym.KeyF2 } : KeyDownEvent)),
   (0x72, ({ sym := KeySym.KeyF3 } : KeyDownEvent)),
   (0x73, ({ sym := KeySym.KeyF4 } : KeyDownEvent)),
   (0x74, ({ sym := KeySym.KeyF5 } : KeyDownEvent)),
   (0x75, ({ sym := KeySym.KeyF6 } : KeyDownEvent)),
   (0x76, ({ sym := KeySym.KeyF7 } : KeyDownEvent)),
   (0x77, ({ sym := KeySym.KeyF8 } : KeyDownEvent)),
   (0x78, ({ sym := KeySym.KeyF9 } : KeyDownEvent)),
   (0x79, ({ sym := KeySym.KeyF10 } : KeyDownEvent)),
   (0x7A, ({ sym := KeySym.KeyF11 } : KeyDownEvent)),
   (0x7B, ({ sym := KeySym.KeyF12 } : KeyDownEvent)),
   (0x7C, ({ sym := KeySym.KeyF13 } : KeyDownEvent)),
   (0x7D, ({ sym := KeySym.KeyF14 } : KeyDownEvent)),
   (0x7E, ({ sym := KeySym.KeyF15 } : KeyDownEvent)),
   (0x7F, ({ sym := KeySym.KeyF16 } : KeyDownEvent)),
   (0x80, ({ sym := KeySym.KeyF17 } : KeyDownEvent)),
   (0x81, ({ sym := KeySym.KeyF18 } : KeyDownEvent)),
   (0x82, ({ sym := KeySym.KeyF19 } : KeyDownEvent)),
   (0x83, ({ sym := KeySym.KeyF20 } : KeyDownEvent)),
   (0x84, ({ sym := KeySym.KeyF21 } : KeyDownEvent)),
   (0x85, ({ sym := KeySym.KeyF22 } : KeyDownEvent)),
   (0x86, ({ sym := KeySym.KeyF23 } : KeyDownEvent)),
   (0x87, ({ sym := KeySym.KeyF24 } : KeyDownEvent)),
   (0x90, ({ sym := KeySym.KeyNumLock } : KeyDownEvent)),
   (0x91, ({ sym := KeySym.KeyScrollLock } : KeyDownEvent)),
   (0xA0, ({ sym := KeySym.KeyLeftShift } : KeyDownEvent)),
   (0xA1, ({ sym := KeySym.KeyRightShift } : KeyDownEvent)),
   (0xA2, ({ sym := KeySym.KeyLeftCtrl } : KeyDownEvent)),
   (0xA3, ({ sym := KeySym.KeyRightCtrl } : KeyDownEvent)),
   (0xA4, ({ sym := KeySym.KeyLeftAlt } : KeyDownEvent)),
   (0xA5, ({ sym := KeySym.KeyRightAlt } : KeyDownEvent)),
   (VK_OEM_4, ({ rune := 91 } : KeyDownEvent))]

/-- Modelled from the spec: the control-key state of a console record, one
flag per bit of the external `coninput` mask (left/right Ctrl and Alt,
Shift, and the three lock bits). A modifier counts as held when any of its
bits is set ("Ctrl held in the control-key state"). -/
structure CtrlKeyState where
  leftCtrl : Bool := false
  rightCtrl : Bool := false
  leftAlt : Bool := false
  rightAlt : Bool := false
  shift : Bool := false
  numLock : Bool := false
  capsLock : Bool := false
  scrollLock : Bool := false
deriving DecidableEq

/-- `vkCtrlRune`: map a C0 character to its Ctrl letter; `VK_OEM_4` is then
forced to `[` unconditionally. -/
def vkCtrlRune (k : KeyDownEvent) (r : Int) (kc : Nat) : KeyDownEvent :=
  let k :=
    if r = 64 then { k with rune := 64 }
    else if r = 1 then { k with rune := 97 }
    else if r = 2 then { k with rune := 98 }
    else if r = 3 then { k with rune := 99 }
    else if r = 4 then { k with rune := 100 }
    else if r = 5 then { k with rune := 101 }
    else if r = 6 then { k with rune := 102 }
    else if r = 7 then { k with rune := 103 }
    else if r = 8 then { k with rune := 104 }
    else if r = 9 then { k with rune := 105 }
    else if r = 10 then { k with rune := 106 }
    else if r = 11 then { k with rune := 107 }
    else if r = 12 then { k with rune := 108 }
    else if r = 13 then { k with rune := 109 }
    else if r = 14 then { k with rune := 110 }
    else if r = 15 then { k with rune := 111 }
    else if r = 16 then { k with rune := 112 }
    else if r = 17 then { k with rune := 113 }
    else if r = 18 then { k with rune := 114 }
    else if r = 19 then { k with rune := 115 }
    else if r = 20 then { k with rune := 116 }
    else if r = 21 then { k with rune := 117 }
    else if r = 22 then { k with rune := 118 }
    else if r = 23 then { k with rune := 119 }
    else if r = 24 then { k with rune := 120 }
    else if r = 25 then { k with rune := 121 }
    else if r = 26 then { k with rune := 122 }
    else if r = 27 then { k with rune := 93 }
    else if r = 28 then { k with rune := 92 }
    else if r = 31 then { k with rune := 95 }
    else k
  if kc = VK_OEM_4 then { k with rune := 91 } else k

/-- `parseWin32InputKeyEvent`: translate one console key record. Mirrors the
source statement for statement; note that `e` is built from `k` BEFORE
`k.IsRepeat` is assigned, so only the KeyUp variant carries the repeat flag.
A lock-bits-only record with neither symbol nor rune yields `nil`, modelled
as `none`. -/
def parseWin32InputKeyEvent (vkc : Nat) (_scan : Nat) (r : Int) (keyDown : Bool)
    (cks : CtrlKeyState) (repeatCount : Nat) : Option Event :=
  let isCtrl := cks.leftCtrl || cks.rightCtrl
  let hit := lookupAssoc vkKeyEvent vkc
  let k : KeyDownEvent :=
    match hit with
    | some k0 => k0
    | none => if isCtrl then vkCtrlRune {} r vkc else ({ rune := r } : KeyDownEvent)
  let k := if isCtrl then { k with mod := k.mod ||| Ctrl } else k
  let k := if cks.leftAlt || cks.rightAlt then { k with mod := k.mod ||| Alt } else k
  let k := if cks.shift then { k with mod := k.mod ||| Shift } else k
  if (cks.numLock || cks.capsLock || cks.scrollLock) &&
      k.rune = 0 && k.sym = KeySym.KeyNone then
    none
  else
    let e := Event.keyDown k
    let k := { k with isRepeat := repeatCount > 1 }
    let e := if !keyDown then Event.keyUp k else e
    if repeatCount ≤ 1 then some e
    else some (Event.multi (List.replicate repeatCount e))

/-! ## Key table construction (`registerKeys`)

The table is an association list where each insertion conses to the front,
so the newest binding shadows older ones — the overwrite semantics of the
Go map. The Alt-duplication pass of the source ranges over the map while
inserting into it; Go leaves the iteration order unspecified and allows a
newly inserted entry to be either produced later in the same iteration or
skipped, so the pass takes the iteration schedule as an explicit parameter
(`goAdm` below characterizes the schedules Go permits). The terminfo
overlay (`registerTerminfoKeys`, invoked only when `FlagNoTerminfo` is
unset) is outside the model; the theorems below all concern flag settings
with `FlagNoTerminfo` set. -/

/-- Key table type. -/
abbrev KeyTable := List (Bytes × KeyDownEvent)

/-- Modelled from the spec: the capability flags, one bit each in the order
listed in the spec's data model. Only distinctness of the bits matters. -/
def FlagCtrlAt : Nat := 1

/-- `FlagSpace`. -/
def FlagSpace : Nat := 2

/-- `FlagCtrlI`. -/
def FlagCtrlI : Nat := 4

/-- `FlagCtrlM`. -/
def FlagCtrlM : Nat := 8

/-- `FlagCtrlOpenBracket`. -/
def FlagCtrlOpenBracket : Nat := 16

/-- `FlagBackspace`. -/
def FlagBackspace : Nat := 32

/-- `FlagFind`. -/
def FlagFind : Nat := 64

/-- `FlagSelect`. -/
def FlagSelect : Nat := 128

/-- `FlagNoXTerm`. -/
def FlagNoXTerm : Nat := 256

/-- `FlagNoTerminfo`. -/
def FlagNoTerminfo : Nat := 512

/-- The flag-dependent NUL event (`nul` in the source; `FlagCtrlAt` wins
over `FlagSpace`, as the later `if` of the source overwrites). -/
def nulEvent (flags : Nat) : KeyDownEvent :=
  if flags &&& FlagCtrlAt ≠ 0 then ({ rune := 64, mod := Ctrl } : KeyDownEvent)
  else if flags &&& FlagSpace ≠ 0 then ({ rune := 32, mod := Ctrl } : KeyDownEvent)
  else ({ sym := KeySym.KeySpace, mod := Ctrl } : KeyDownEvent)

/-- `tab` in the source. -/
def tabEvent (flags : Nat) : KeyDownEvent :=
  if flags &&& FlagCtrlI ≠ 0 then ({ rune := 105, mod := Ctrl } : KeyDownEvent)
  else ({ sym := KeySym.KeyTab } : KeyDownEvent)

/-- `enter` in the source. -/
def enterEvent (flags : Nat) : KeyDownEvent :=
  if flags &&& FlagCtrlM ≠ 0 then ({ rune := 109, mod := Ctrl } : KeyDownEvent)
  else ({ sym := KeySym.KeyEnter } : KeyDownEvent)

/-- `esc` in the source. -/
def escEvent (flags : Nat) : KeyDownEvent :=
  if flags &&& FlagCtrlOpenBracket ≠ 0 then ({ rune := 91, mod := Ctrl } : KeyDownEvent)
  else ({ sym := KeySym.KeyEscape } : KeyDownEvent)

/-- `sp` in the source. -/
def spEvent (flags : Nat) : KeyDownEvent :=
  if flags &&& FlagSpace ≠ 0 then ({ rune := 32 } : KeyDownEvent)
  else ({ sym := KeySym.KeySpace, rune := 32 } : KeyDownEvent)

/-- `del` in the source. -/
def delEvent (flags : Nat) : KeyDownEvent :=
  if flags &&& FlagBackspace ≠ 0 then ({ sym := KeySym.KeyDelete } : KeyDownEvent)
  else ({ sym := KeySym.KeyBackspace } : KeyDownEvent)

/-- `find` in the source. -/
def findEvent (flags : Nat) : KeyDownEvent :=
  if flags &&& FlagFind ≠ 0 then ({ sym := KeySym.KeyFind } : KeyDownEvent)
  else ({ sym := KeySym.KeyHome } : KeyDownEvent)

/-- `sel` in the source. -/
def selEvent (flags : Nat) : KeyDownEvent :=
  if flags &&& FlagSelect ≠ 0 then ({ sym := KeySym.KeySelect } : KeyDownEvent)
  else ({ sym := KeySym.KeyEnd } : KeyDownEvent)

set_option maxHeartbeats 1600000 in
/-- The initial table literal of `registerKeys`: C0 controls, SP and DEL,
the VT100/VT200 CSI, SS3 and keypad sequences, and the `ESC [ n ~` family.
All keys of the Go map literal are distinct, so list order is irrelevant. -/
def baseTable (flags : Nat) : KeyTable :=
  [([0], nulEvent flags),
   ([1], ({ rune := 97, mod := Ctrl } : KeyDownEvent)),
   ([2], ({ rune := 98, mod := Ctrl } : KeyDownEvent)),
   ([3], ({ rune := 99, mod := Ctrl } : KeyDownEvent)),
   ([4], ({ rune := 100, mod := Ctrl } : KeyDownEvent)),
   ([5], ({ rune := 101, mod := Ctrl } : KeyDownEvent)),
   ([6], ({ rune := 102, mod := Ctrl } : KeyDownEvent)),
   ([7], ({ rune := 103, mod := Ctrl } : KeyDownEvent)),
   ([8], ({ rune := 104, mod := Ctrl } : KeyDownEvent)),
   ([9], tabEvent flags),
   ([10], ({ rune := 106, mod := Ctrl } : KeyDownEvent)),
   ([11], ({ rune := 107, mod := Ctrl } : KeyDownEvent)),
   ([12], ({ rune := 108, mod := Ctrl } : KeyDownEvent)),
   ([13], enterEvent flags),
   ([14], ({ rune := 110, mod := Ctrl } : KeyDownEvent)),
   ([15], ({ rune := 111, mod := Ctrl } : KeyDownEvent)),
   ([16], ({ rune := 112, mod := Ctrl } : KeyDownEvent)),
   ([17], ({ rune := 113, mod := Ctrl } : KeyDownEvent)),
   ([18], ({ rune := 114, mod := Ctrl } : KeyDownEvent)),
   ([19], ({ rune := 115, mod := Ctrl } : KeyDownEvent)),
   ([20], ({ rune := 116, mod := Ctrl } : KeyDownEvent)),
   ([21], ({ rune := 117, mod := Ctrl } : KeyDownEvent)),
   ([22], ({ rune := 118, mod := Ctrl } : KeyDownEvent)),
   ([23], ({ rune := 119, mod := Ctrl } : KeyDownEvent)),
   ([24], ({ rune := 120, mod := Ctrl } : KeyDownEvent)),
   ([25], ({ rune := 121, mod := Ctrl } : KeyDownEvent)),
   ([26], ({ rune := 122, mod := Ctrl } : KeyDownEvent)),
   ([27], escEvent flags),
   ([28], ({ rune := 92, mod := Ctrl } : KeyDownEvent)),
   ([29], ({ rune := 93, mod := Ctrl } : KeyDownEvent)),
   ([30], ({ rune := 94, mod := Ctrl } : KeyDownEvent)),
   ([31], ({ rune := 95, mod := Ctrl } : KeyDownEvent)),
   ([32], spEvent flags),
   ([127], delEvent flags),
   ([27, 91, 90], ({ sym := KeySym.KeyTab, mod := Shift } : KeyDownEvent)),
   ([27, 91, 49, 126], findEvent flags),
   ([27, 91, 50, 126], ({ sym := KeySym.KeyInsert } : KeyDownEvent)),
   ([27, 91, 51, 126], ({ sym := KeySym.KeyDelete } : KeyDownEvent)),
   ([27, 91, 52, 126], selEvent flags),
   ([27, 91, 53, 126], ({ sym := KeySym.KeyPgUp } : KeyDownEvent)),
   ([27, 91, 54, 126], ({ sym := KeySym.KeyPgDown } : KeyDownEvent)),
   ([27, 91, 55, 126], ({ sym := KeySym.KeyHome } : KeyDownEvent)),
   ([27, 91, 56, 126], ({ sym := KeySym.KeyEnd } : KeyDownEvent)),
   ([27, 91, 65], ({ sym := KeySym.KeyUp } : KeyDownEvent)),
   ([27, 91, 66], ({ sym := KeySym.KeyDown } : KeyDownEvent)),
   ([27, 91, 67], ({ sym := KeySym.KeyRight } : KeyDownEvent)),
   ([27, 91, 68], ({ sym := KeySym.KeyLeft } : KeyDownEvent)),
   ([27, 91, 69], ({ sym := KeySym.KeyBegin } : KeyDownEvent)),
   ([27, 91, 70], ({ sym := KeySym.KeyEnd } : KeyDownEvent)),
   ([27, 91, 72], ({ sym := KeySym.KeyHome } : KeyDownEvent)),
   ([27, 91, 80], ({ sym := KeySym.KeyF1 } : KeyDownEvent)),
   ([27, 91, 81], ({ sym := KeySym.KeyF2 } : KeyDownEvent)),
   ([27, 91, 82], ({ sym := KeySym.KeyF3 } : KeyDownEvent)),
   ([27, 91, 83], ({ sym := KeySym.KeyF4 } : KeyDownEvent)),
   ([27, 79, 65], ({ sym := KeySym.KeyUp } : KeyDownEvent)),
   ([27, 79, 66], ({ sym := KeySym.KeyDown } : KeyDownEvent)),
   ([27, 79, 67], ({ sym := KeySym.KeyRight } : KeyDownEvent)),
   ([27, 79, 68], ({ sym := KeySym.KeyLeft } : KeyDownEvent)),
   ([27, 79, 69], ({ sym := KeySym.KeyBegin } : KeyDownEvent)),
   ([27, 79, 70], ({ sym := KeySym.KeyEnd } : KeyDownEvent)),
   ([27, 79, 72], ({ sym := KeySym.KeyHome } : KeyDownEvent)),
   ([27, 79, 80], ({ sym := KeySym.KeyF1 } : KeyDownEvent)),
   ([27, 79, 81], ({ sym := KeySym.KeyF2 } : KeyDownEvent)),
   ([27, 79, 82], ({ sym := KeySym.KeyF3 } : KeyDownEvent)),
   ([27, 79, 83], ({ sym := KeySym.KeyF4 } : KeyDownEvent)),
   ([27, 79, 77], ({ sym := KeySym.KeyKpEnter } : KeyDownEvent)),
   ([27, 79, 88], ({ sym := KeySym.KeyKpEqual } : KeyDownEvent)),
   ([27, 79, 106], ({ sym := KeySym.KeyKpMul } : KeyDownEvent)),
   ([27, 79, 107], ({ sym := KeySym.KeyKpPlus } : KeyDownEvent)),
   ([27, 79, 108], ({ sym := KeySym.KeyKpComma } : KeyDownEvent)),
   ([27, 79, 109], ({ sym := KeySym.KeyKpMinus } : KeyDownEvent)),
   ([27, 79, 110], ({ sym := KeySym.KeyKpPeriod } : KeyDownEvent)),
   ([27, 79, 111], ({ sym := KeySym.KeyKpDiv } : KeyDownEvent)),
   ([27, 79, 112], ({ sym := KeySym.KeyKp0 } : KeyDownEvent)),
   ([27, 79, 113], ({ sym := KeySym.KeyKp1 } : KeyDownEvent)),
   ([27, 79, 114], ({ sym := KeySym.KeyKp2 } : KeyDownEvent)),
   ([27, 79, 115], ({ sym := KeySym.KeyKp3 } : KeyDownEvent)),
   ([27, 79, 116], ({ sym := KeySym.KeyKp4 } : KeyDownEvent)),
   ([27, 79, 117], ({ sym := KeySym.KeyKp5 } : KeyDownEvent)),
   ([27, 79, 118], ({ sym := KeySym.KeyKp6 } : KeyDownEvent)),
   ([27, 79, 119], ({ sym := KeySym.KeyKp7 } : KeyDownEvent)),
   ([27, 79, 120], ({ sym := KeySym.KeyKp8 } : KeyDownEvent)),
   ([27, 79, 121], ({ sym := KeySym.KeyKp9 } : KeyDownEvent)),
   ([27, 91, 49, 49, 126], ({ sym := KeySym.KeyF1 } : KeyDownEvent)),
   ([27, 91, 49, 50, 126], ({ sym := KeySym.KeyF2 } : KeyDownEvent)),
   ([27, 91, 49, 51, 126], ({ sym := KeySym.KeyF3 } : KeyDownEvent)),
   ([27, 91, 49, 52, 126], ({ sym := KeySym.KeyF4 } : KeyDownEvent)),
   ([27, 91, 49, 53, 126], ({ sym := KeySym.KeyF5 } : KeyDownEvent)),
   ([27, 91, 49, 55, 126], ({ sym := KeySym.KeyF6 } : KeyDownEvent)),
   ([27, 91, 49, 56, 126], ({ sym := KeySym.KeyF7 } : KeyDownEvent)),
   ([27, 91, 49, 57, 126], ({ sym := KeySym.KeyF8 } : KeyDownEvent)),
   ([27, 91, 50, 48, 126], ({ sym := KeySym.KeyF9 } : KeyDownEvent)),
   ([27, 91, 50, 49, 126], ({ sym := KeySym.KeyF10 } : KeyDownEvent)),
   ([27, 91, 50, 51, 126], ({ sym := KeySym.KeyF11 } : KeyDownEvent)),
   ([27, 91, 50, 52, 126], ({ sym := KeySym.KeyF12 } : KeyDownEvent)),
   ([27, 91, 50, 53, 126], ({ sym := KeySym.KeyF13 } : KeyDownEvent)),
   ([27, 91, 50, 54, 126], ({ sym := KeySym.KeyF14 } : KeyDownEvent)),
   ([27, 91, 50, 56, 126], ({ sym := KeySym.KeyF15 } : KeyDownEvent)),
   ([27, 91, 50, 57, 126], ({ sym := KeySym.KeyF16 } : KeyDownEvent)),
   ([27, 91, 51, 49, 126], ({ sym := KeySym.KeyF17 } : KeyDownEvent)),
   ([27, 91, 51, 50, 126], ({ sym := KeySym.KeyF18 } : KeyDownEvent)),
   ([27, 91, 51, 51, 126], ({ sym := KeySym.KeyF19 } : KeyDownEvent)),
   ([27, 91, 51, 52, 126], ({ sym := KeySym.KeyF20 } : KeyDownEvent))]

/-- The `modifiers` slice of the source: the 15 non-empty combinations in
XTerm order; the entry at (1-based) position `m` is the bitset `m`. -/
def modifiersList : List Nat :=
  [Shift, Alt, Shift ||| Alt, Ctrl, Shift ||| Ctrl, Alt ||| Ctrl,
   Shift ||| Alt ||| Ctrl, Meta, Meta ||| Shift, Meta ||| Alt,
   Meta ||| Shift ||| Alt, Meta ||| Ctrl, Meta ||| Shift ||| Ctrl,
   Meta ||| Alt ||| Ctrl, Meta ||| Shift ||| Alt ||| Ctrl]

/-- `csiFuncKeys`: final byte of the CSI function sequence to its event. -/
def csiFuncKeys : List (Nat × KeyDownEvent) :=
  [(65, ({ sym := KeySym.KeyUp } : KeyDownEvent)), (66, ({ sym := KeySym.KeyDown } : KeyDownEvent)),
   (67, ({ sym := KeySym.KeyRight } : KeyDownEvent)), (68, ({ sym := KeySym.KeyLeft } : KeyDownEvent)),
   (69, ({ sym := KeySym.KeyBegin } : KeyDownEvent)), (70, ({ sym := KeySym.KeyEnd } : KeyDownEvent)),
   (72, ({ sym := KeySym.KeyHome } : KeyDownEvent)), (80, ({ sym := KeySym.KeyF1 } : KeyDownEvent)),
   (81, ({ sym := KeySym.KeyF2 } : KeyDownEvent)), (82, ({ sym := KeySym.KeyF3 } : KeyDownEvent)),
   (83, ({ sym := KeySym.KeyF4 } : KeyDownEvent))]

/-- `ss3FuncKeys`: final byte of the SS3 keypad sequence to its event. -/
def ss3FuncKeys : List (Nat × KeyDownEvent) :=
  [(77, ({ sym := KeySym.KeyKpEnter } : KeyDownEvent)), (88, ({ sym := KeySym.KeyKpEqual } : KeyDownEvent)),
   (106, ({ sym := KeySym.KeyKpMul } : KeyDownEvent)), (107, ({ sym := KeySym.KeyKpPlus } : KeyDownEvent)),
   (108, ({ sym := KeySym.KeyKpComma } : KeyDownEvent)), (109, ({ sym := KeySym.KeyKpMinus } : KeyDownEvent)),
   (110, ({ sym := KeySym.KeyKpPeriod } : KeyDownEvent)), (111, ({ sym := KeySym.KeyKpDiv } : KeyDownEvent)),
   (112, ({ sym := KeySym.KeyKp0 } : KeyDownEvent)), (113, ({ sym := KeySym.KeyKp1 } : KeyDownEvent)),
   (114, ({ sym := KeySym.KeyKp2 } : KeyDownEvent)), (115, ({ sym := KeySym.KeyKp3 } : KeyDownEvent)),
   (116, ({ sym := KeySym.KeyKp4 } : KeyDownEvent)), (117, ({ sym := KeySym.KeyKp5 } : KeyDownEvent)),
   (118, ({ sym := KeySym.KeyKp6 } : KeyDownEvent)), (119, ({ sym := KeySym.KeyKp7 } : KeyDownEvent)),
   (120, ({ sym := KeySym.KeyKp8 } : KeyDownEvent)), (121, ({ sym := KeySym.KeyKp9 } : KeyDownEvent))]

set_option maxHeartbeats 1600000 in
/-- `csiTildeKeys`: the decimal number (as a digit byte string) of the
`ESC [ n ~` family to its event; `1` and `4` honor FlagFind / FlagSelect. -/
def csiTildeKeys (flags : Nat) : List (Bytes × KeyDownEvent) :=
  [([49], findEvent flags), ([50], ({ sym := KeySym.KeyInsert } : KeyDownEvent)),
   ([51], ({ sym := KeySym.KeyDelete } : KeyDownEvent)), ([52], selEvent flags),
   ([53], ({ sym := KeySym.KeyPgUp } : KeyDownEvent)), ([54], ({ sym := KeySym.KeyPgDown } : KeyDownEvent)),
   ([55], ({ sym := KeySym.KeyHome } : KeyDownEvent)), ([56], ({ sym := KeySym.KeyEnd } : KeyDownEvent)),
   ([49, 49], ({ sym := KeySym.KeyF1 } : KeyDownEvent)), ([49, 50], ({ sym := KeySym.KeyF2 } : KeyDownEvent)),
   ([49, 51], ({ sym := KeySym.KeyF3 } : KeyDownEvent)), ([49, 52], ({ sym := KeySym.KeyF4 } : KeyDownEvent)),
   ([49, 53], ({ sym := KeySym.KeyF5 } : KeyDownEvent)), ([49, 55], ({ sym := KeySym.KeyF6 } : KeyDownEvent)),
   ([49, 56], ({ sym := KeySym.KeyF7 } : KeyDownEvent)), ([49, 57], ({ sym := KeySym.KeyF8 } : KeyDownEvent)),
   ([50, 48], ({ sym := KeySym.KeyF9 } : KeyDownEvent)), ([50, 49], ({ sym := KeySym.KeyF10 } : KeyDownEvent)),
   ([50, 51], ({ sym := KeySym.KeyF11 } : KeyDownEvent)), ([50, 52], ({ sym := KeySym.KeyF12 } : KeyDownEvent)),
   ([50, 53], ({ sym := KeySym.KeyF13 } : KeyDownEvent)), ([50, 54], ({ sym := KeySym.KeyF14 } : KeyDownEvent)),
   ([50, 56], ({ sym := KeySym.KeyF15 } : KeyDownEvent)), ([50, 57], ({ sym := KeySym.KeyF16 } : KeyDownEvent)),
   ([51, 49], ({ sym := KeySym.KeyF17 } : KeyDownEvent)), ([51, 50], ({ sym := KeySym.KeyF18 } : KeyDownEvent)),
   ([51, 51], ({ sym := KeySym.KeyF19 } : KeyDownEvent)), ([51, 52], ({ sym := KeySym.KeyF20 } : KeyDownEvent))]

/-- Digit-emitting core of `strconv.Itoa`, fuel-based like the decimal
formatter of the standard library (`fuel ≥ n` suffices). -/
def itoaCore : Nat → Nat → Bytes → Bytes
  | 0, _, acc => acc
  | fuel + 1, n, acc =>
    if n < 10 then (48 + n) :: acc
    else itoaCore fuel (n / 10) ((48 + n % 10) :: acc)

/-- `strconv.Itoa` for the non-negative values the builder prints. -/
def itoa (n : Nat) : Bytes :=
  itoaCore (n + 1) n []

/-- The XTerm-modifier entries generated for one modifier combination `m`
(`strconv.Itoa(int(m)+1)` is the wire encoding): the `CSI 1 ; e F`,
`SS3 e F`, `CSI n ; e ~` and `CSI 27 ; e ; code ~` families. The inner Go
map iterations have pairwise distinct keys, so source literal order is
used. -/
def xtermEntriesFor (flags m : Nat) : KeyTable :=
  let e := itoa (m + 1)
  (csiFuncKeys.map fun p => ([27, 91, 49, 59] ++ e ++ [p.1], { p.2 with mod := m })) ++
  (ss3FuncKeys.map fun p => ([27, 79] ++ e ++ [p.1], { p.2 with mod := m })) ++
  ((csiTildeKeys flags).map fun p =>
    ([27, 91] ++ p.1 ++ [59] ++ e ++ [126], { p.2 with mod := m })) ++
  (modifyOtherKeys.map fun p =>
    ([27, 91, 50, 55, 59] ++ e ++ [59] ++ itoa p.1.toNat ++ [126], { p.2 with mod := m }))

/-- All XTerm-modifier entries, in the order of the `modifiers` slice. -/
def xtermEntries (flags : Nat) : KeyTable :=
  modifiersList.flatMap (xtermEntriesFor flags)

/-- Phase 3 of the builder: the XTerm expansion, unless `FlagNoXTerm`. -/
def xtermPhase (flags : Nat) (t : KeyTable) : KeyTable :=
  if flags &&& FlagNoXTerm = 0 then insertAll t (xtermEntries flags) else t

/-- The URxvt arrow-key aliases (`ESC [ a..d` with Shift, `ESC O a..d` with
Ctrl). -/
def urxvtArrows : KeyTable :=
  [([27, 91, 97], ({ sym := KeySym.KeyUp, mod := Shift } : KeyDownEvent)),
   ([27, 91, 98], ({ sym := KeySym.KeyDown, mod := Shift } : KeyDownEvent)),
   ([27, 91, 99], ({ sym := KeySym.KeyRight, mod := Shift } : KeyDownEvent)),
   ([27, 91, 100], ({ sym := KeySym.KeyLeft, mod := Shift } : KeyDownEvent)),
   ([27, 79, 97], ({ sym := KeySym.KeyUp, mod := Ctrl } : KeyDownEvent)),
   ([27, 79, 98], ({ sym := KeySym.KeyDown, mod := Ctrl } : KeyDownEvent)),
   ([27, 79, 99], ({ sym := KeySym.KeyRight, mod := Ctrl } : KeyDownEvent)),
   ([27, 79, 100], ({ sym := KeySym.KeyLeft, mod := Ctrl } : KeyDownEvent))]

/-- The URxvt modifier suffixes for the tilde family: `$` adds Shift, `^`
adds Ctrl, `@` adds Shift+Ctrl. -/
def urxvtTilde (flags : Nat) : KeyTable :=
  (csiTildeKeys flags).flatMap fun p =>
    [([27, 91] ++ p.1 ++ [36], { p.2 with mod := Shift }),
     ([27, 91] ++ p.1 ++ [94], { p.2 with mod := Ctrl }),
     ([27, 91] ++ p.1 ++ [64], { p.2 with mod := Shift ||| Ctrl })]

set_option maxHeartbeats 1600000 in
/-- The literal URxvt F-key entries (Shift F1-F10 generates F11-F20 in
URxvt, hence the overlaps with the tilde-suffix family; the re-inserted
bindings carry the same values). -/
def urxvtFKeys : KeyTable :=
  [([27, 91, 50, 51, 36], ({ sym := KeySym.KeyF11, mod := Shift } : KeyDownEvent)),
   ([27, 91, 50, 52, 36], ({ sym := KeySym.KeyF12, mod := Shift } : KeyDownEvent)),
   ([27, 91, 50, 53, 36], ({ sym := KeySym.KeyF13, mod := Shift } : KeyDownEvent)),
   ([27, 91, 50, 54, 36], ({ sym := KeySym.KeyF14, mod := Shift } : KeyDownEvent)),
   ([27, 91, 50, 56, 36], ({ sym := KeySym.KeyF15, mod := Shift } : KeyDownEvent)),
   ([27, 91, 50, 57, 36], ({ sym := KeySym.KeyF16, mod := Shift } : KeyDownEvent)),
   ([27, 91, 51, 49, 36], ({ sym := KeySym.KeyF17, mod := Shift } : KeyDownEvent)),
   ([27, 91, 51, 50, 36], ({ sym := KeySym.KeyF18, mod := Shift } : KeyDownEvent)),
   ([27, 91, 51, 51, 36], ({ sym := KeySym.KeyF19, mod := Shift } : KeyDownEvent)),
   ([27, 91, 51, 52, 36], ({ sym := KeySym.KeyF20, mod := Shift } : KeyDownEvent)),
   ([27, 91, 49, 49, 94], ({ sym := KeySym.KeyF1, mod := Ctrl } : KeyDownEvent)),
   ([27, 91, 49, 50, 94], ({ sym := KeySym.KeyF2, mod := Ctrl } : KeyDownEvent)),
   ([27, 91, 49, 51, 94], ({ sym := KeySym.KeyF3, mod := Ctrl } : KeyDownEvent)),
   ([27, 91, 49, 52, 94], ({ sym := KeySym.KeyF4, mod := Ctrl } : KeyDownEvent)),
   ([27, 91, 49, 53, 94], ({ sym := KeySym.KeyF5, mod := Ctrl } : KeyDownEvent)),
   ([27, 91, 49, 55, 94], ({ sym := KeySym.KeyF6, mod := Ctrl } : KeyDownEvent)),
   ([27, 91, 49, 56, 94], ({ sym := KeySym.KeyF7, mod := Ctrl } : KeyDownEvent)),
   ([27, 91, 49, 57, 94], ({ sym := KeySym.KeyF8, mod := Ctrl } : KeyDownEvent)),
   ([27, 91, 50, 48, 94], ({ sym := KeySym.KeyF9, mod := Ctrl } : KeyDownEvent)),
   ([27, 91, 50, 49, 94], ({ sym := KeySym.KeyF10, mod := Ctrl } : KeyDownEvent)),
   ([27, 91, 50, 51, 94], ({ sym := KeySym.KeyF11, mod := Ctrl } : KeyDownEvent)),
   ([27, 91, 50, 52, 94], ({ sym := KeySym.KeyF12, mod := Ctrl } : KeyDownEvent)),
   ([27, 91, 50, 53, 94], ({ sym := KeySym.KeyF13, mod := Ctrl } : KeyDownEvent)),
   ([27, 91, 50, 54, 94], ({ sym := KeySym.KeyF14, mod := Ctrl } : KeyDownEvent)),
   ([27, 91, 50, 56, 94], ({ sym := KeySym.KeyF15, mod := Ctrl } : KeyDownEvent)),
   ([27, 91, 50, 57, 94], ({ sym := KeySym.KeyF16, mod := Ctrl } : KeyDownEvent)),
   ([27, 91, 51, 49, 94], ({ sym := KeySym.KeyF17, mod := Ctrl } : KeyDownEvent)),
   ([27, 91, 51, 50, 94], ({ sym := KeySym.KeyF18, mod := Ctrl } : KeyDownEvent)),
   ([27, 91, 51, 51, 94], ({ sym := KeySym.KeyF19, mod := Ctrl } : KeyDownEvent)),
   ([27, 91, 51, 52, 94], ({ sym := KeySym.KeyF20, mod := Ctrl } : KeyDownEvent)),
   ([27, 91, 50, 51, 64], ({ sym := KeySym.KeyF11, mod := Shift ||| Ctrl } : KeyDownEvent)),
   ([27, 91, 50, 52, 64], ({ sym := KeySym.KeyF12, mod := Shift ||| Ctrl } : KeyDownEvent)),
   ([27, 91, 50, 53, 64], ({ sym := KeySym.KeyF13, mod := Shift ||| Ctrl } : KeyDownEvent)),
   ([27, 91, 50, 54, 64], ({ sym := KeySym.KeyF14, mod := Shift ||| Ctrl } : KeyDownEvent)),
   ([27, 91, 50, 56, 64], ({ sym := KeySym.KeyF15, mod := Shift ||| Ctrl } : KeyDownEvent)),
   ([27, 91, 50, 57, 64], ({ sym := KeySym.KeyF16, mod := Shift ||| Ctrl } : KeyDownEvent)),
   ([27, 91, 51, 49, 64], ({ sym := KeySym.KeyF17, mod := Shift ||| Ctrl } : KeyDownEvent)),
   ([27, 91, 51, 50, 64], ({ sym := KeySym.KeyF18, mod := Shift ||| Ctrl } : KeyDownEvent)),
   ([27, 91, 51, 51, 64], ({ sym := KeySym.KeyF19, mod := Shift ||| Ctrl } : KeyDownEvent)),
   ([27, 91, 51, 52, 64], ({ sym := KeySym.KeyF20, mod := Shift ||| Ctrl } : KeyDownEvent))]

/-- Phase 4 of the builder: the three URxvt groups in source order. -/
def urxvtEntries (flags : Nat) : KeyTable :=
  urxvtArrows ++ urxvtTilde flags ++ urxvtFKeys

/-- The table right before the Alt-duplication pass: base literal, then the
XTerm phase, then the URxvt phase. -/
def preAlt (flags : Nat) : KeyTable :=
  insertAll (xtermPhase flags (baseTable flags)) (urxvtEntries flags)

/-- `key.Mod |= Alt`, the value transformation of the Alt pass. -/
def withAlt (v : KeyDownEvent) : KeyDownEvent :=
  { v with mod := v.mod ||| Alt }

/-- One step of the Alt-duplication pass: when the map range produces key
`k`, its current value `v` is read and `ESC‖k ↦ v with Alt` inserted. A key
no longer (or never) present produces nothing. -/
def altStep (t : KeyTable) (k : Bytes) : KeyTable :=
  match lookupAssoc t k with
  | some v => insertKey t (27 :: k) (withAlt v)
  | none => t

/-- The Alt-duplication pass under an explicit iteration schedule. -/
def altPass (t : KeyTable) (sched : List Bytes) : KeyTable :=
  sched.foldl altStep t

/-- `registerKeys` up to (and excluding) the terminfo overlay — the whole
construction when `FlagNoTerminfo` is set. `altSched` is the Go map
iteration order of the Alt-duplication pass. -/
def registerKeys (flags : Nat) (altSched : List Bytes) : KeyTable :=
  altPass (preAlt flags) altSched

/-- The iteration schedules Go permits for `for k, v := range table` while
`ESC‖k` entries are being inserted: every key present at the start is
produced exactly once; a newly created key (always `ESC‖k` of a produced
`k`) may additionally be produced, at most once, after its creation. -/
def goAdm : List Bytes → List Bytes → List Bytes → Bool
  | snap, _, [] => snap.isEmpty
  | snap, created, e :: rest =>
    if e ∈ snap then goAdm (snap.erase e) ((27 :: e) :: created) rest
    else if e ∈ created then goAdm snap ((27 :: e) :: created.erase e) rest
    else false

/-- Whether `sched` is a Go-admissible iteration order for the Alt pass
over table `t`. -/
def goAdmissible (t : KeyTable) (sched : List Bytes) : Bool :=
  goAdm (keysOf t).dedup [] sched

/-! ## Structural facts about the table and the Alt-duplication pass -/

/-- Shape of every key the builder produces before the Alt pass: a single
byte that is a C0 control, SP or DEL, or a multi-byte sequence starting
with ESC followed by `O` or `[`. -/
def goodKeyB : Bytes → Bool
  | [] => false
  | [a] => if a ≤ 32 ∨ a = 127 then true else false
  | a :: b :: _ => if a = 27 ∧ (b = 79 ∨ b = 91) then true else false

/-- First byte is ESC, a C0 control byte, or DEL (the start set of the
original claim). -/
def escC0DelStartB : Bytes → Bool
  | [] => false
  | a :: _ => if a = 27 ∨ a ≤ 31 ∨ a = 127 then true else false

/-- First byte is ESC, a C0 control byte, DEL, or SP (the amended set). -/
def tableKeyStartB : Bytes → Bool
  | [] => false
  | a :: _ => if a = 27 ∨ a ≤ 31 ∨ a = 127 ∨ a = 32 then true else false

theorem goodKeyB_tableKeyStart {k : Bytes} (h : goodKeyB k = true) :
    k ≠ [] ∧ tableKeyStartB k = true := by
  match k with
  | [] => simp [goodKeyB] at h
  | [a] =>
    refine ⟨by simp, ?_⟩
    simp only [goodKeyB] at h
    split at h
    · rename_i ha
      simp only [tableKeyStartB]
      rcases ha with ha | ha
      · rcases Nat.lt_or_ge a 32 with h32 | h32
        · exact if_pos (Or.inr (Or.inl (by omega)))
        · exact if_pos (Or.inr (Or.inr (Or.inr (by omega))))
      · exact if_pos (Or.inr (Or.inr (Or.inl ha)))
    · exact absurd h (by simp)
  | a :: b :: r =>
    refine ⟨by simp, ?_⟩
    simp only [goodKeyB] at h
    split at h
    · rename_i ha
      exact if_pos (Or.inl ha.1)
    · exact absurd h (by simp)

/-- `k` cannot be a key the Alt pass over `t0` ever inserts: it is not
`ESC‖e` for any `e` that is an original key or itself starts with ESC. -/
def safeKey (t0 : KeyTable) (k : Bytes) : Prop :=
  ∀ e, k = 27 :: e → e ∉ keysOf t0 ∧ e.head? ≠ some 27

theorem safeKey_of_good {t0 : KeyTable}
    (hall : ∀ j ∈ keysOf t0, goodKeyB j = true) {k : Bytes}
    (hk : goodKeyB k = true) : safeKey t0 k := by
  intro e he
  subst he
  match e, hk with
  | [], _ =>
    refine ⟨fun hmem => ?_, by simp⟩
    have := hall [] hmem
    simp [goodKeyB] at this
  | b :: r, hk =>
    simp only [goodKeyB] at hk
    split at hk
    · rename_i hb
      refine ⟨fun hmem => ?_, ?_⟩
      · have hgb := hall (b :: r) hmem
        match r, hgb with
        | [], hgb =>
          simp only [goodKeyB] at hgb
          split at hgb
          · rename_i h1
            rcases hb.2 with h | h <;> rcases h1 with h1 | h1 <;> omega
          · exact absurd hgb (by simp)
        | c :: r', hgb =>
          simp only [goodKeyB] at hgb
          split at hgb
          · rename_i h1
            rcases hb.2 with h | h <;> omega
          · exact absurd hgb (by simp)
      · simp only [List.head?]
        intro hc
        have : b = 27 := by simpa using hc
        rcases hb.2 with h | h <;> omega
    · exact absurd hk (by simp)

/-- Every key of `t` is an original key of `t0` or starts with ESC — the
invariant the Alt pass maintains. -/
def keysSub (t0 t : KeyTable) : Prop :=
  ∀ j ∈ keysOf t, j ∈ keysOf t0 ∨ j.head? = some 27

theorem keysSub_refl (t0 : KeyTable) : keysSub t0 t0 :=
  fun j hj => Or.inl hj

theorem mem_keysOf_altStep {t : KeyTable} {e j : Bytes}
    (h : j ∈ keysOf (altStep t e)) : j = 27 :: e ∨ j ∈ keysOf t := by
  unfold altStep at h
  cases hl : lookupAssoc t e with
  | none => rw [hl] at h; exact Or.inr h
  | some v =>
    rw [hl] at h
    have h' : j ∈ (27 :: e) :: keysOf t := h
    rcases List.mem_cons.mp h' with h | h
    · exact Or.inl h
    · exact Or.inr h

theorem keysSub_altStep {t0 t : KeyTable} {e : Bytes}
    (hinv : keysSub t0 t) : keysSub t0 (altStep t e) := by
  intro j hj
  rcases mem_keysOf_altStep hj with h | h
  · exact Or.inr (by rw [h]; rfl)
  · exact hinv j h

theorem ne_esc_cons_of_safe {t0 t : KeyTable} {k e : Bytes}
    (hinv : keysSub t0 t) (hsafe : safeKey t0 k) (he : e ∈ keysOf t) :
    27 :: e ≠ k := by
  intro hc
  obtain ⟨hnot, hhead⟩ := hsafe e hc.symm
  rcases hinv e he with h | h
  · exact hnot h
  · exact hhead h

theorem lookupAssoc_altStep_of_safe {t0 t : KeyTable} {e k : Bytes}
    (hinv : keysSub t0 t) (hsafe : safeKey t0 k) :
    lookupAssoc (altStep t e) k = lookupAssoc t k := by
  unfold altStep
  cases hl : lookupAssoc t e with
  | none => rfl
  | some v =>
    have hne : 27 :: e ≠ k :=
      ne_esc_cons_of_safe hinv hsafe (mem_keysOf_of_lookupAssoc_some hl)
    simp [insertKey, lookupAssoc, hne]

theorem lookupAssoc_altPass_of_safe (sched : List Bytes) {t0 : KeyTable}
    (t : KeyTable) {k : Bytes}
    (hinv : keysSub t0 t) (hsafe : safeKey t0 k) :
    lookupAssoc (altPass t sched) k = lookupAssoc t k := by
  induction sched generalizing t with
  | nil => rfl
  | cons e s ih =>
    show lookupAssoc (altPass (altStep t e) s) k = lookupAssoc t k
    rw [ih (altStep t e) (keysSub_altStep hinv),
      lookupAssoc_altStep_of_safe hinv hsafe]

theorem lookupAssoc_altPass_of_not_target (sched : List Bytes) (t : KeyTable)
    {k : Bytes} (h : ∀ e ∈ sched, 27 :: e ≠ k) :
    lookupAssoc (altPass t sched) k = lookupAssoc t k := by
  induction sched generalizing t with
  | nil => rfl
  | cons e s ih =>
    show lookupAssoc (altPass (altStep t e) s) k = lookupAssoc t k
    rw [ih (altStep t e) fun e' he' => h e' (List.mem_cons_of_mem e he')]
    unfold altStep
    cases hl : lookupAssoc t e with
    | none => rfl
    | some v => simp [insertKey, lookupAssoc, h e (List.mem_cons_self e s)]

theorem lookupAssoc_altStep_isSome {t : KeyTable} {e k : Bytes}
    (h : lookupAssoc t k ≠ none) : lookupAssoc (altStep t e) k ≠ none := by
  unfold altStep
  cases hl : lookupAssoc t e with
  | none => exact h
  | some v =>
    simp only [insertKey, lookupAssoc]
    split
    · simp
    · exact h

theorem altPass_stable (sched : List Bytes) {t0 : KeyTable} (t : KeyTable)
    {k : Bytes} {v : KeyDownEvent}
    (hinv : keysSub t0 t) (hsafe : safeKey t0 k)
    (hk : lookupAssoc t k = some v)
    (hdup : lookupAssoc t (27 :: k) = some (withAlt v)) :
    lookupAssoc (altPass t sched) (27 :: k) = some (withAlt v) := by
  induction sched generalizing t with
  | nil => exact hdup
  | cons e s ih =>
    show lookupAssoc (altPass (altStep t e) s) (27 :: k) = some (withAlt v)
    refine ih (altStep t e) (keysSub_altStep hinv) ?_ ?_
    · exact (lookupAssoc_altStep_of_safe hinv hsafe).trans hk
    · unfold altStep
      cases hl : lookupAssoc t e with
      | none => exact hdup
      | some w =>
        by_cases hek : e = k
        · subst hek
          have hw : w = v := by rw [hk] at hl; exact (Option.some.injEq _ _ ▸ hl).symm
          simp [insertKey, lookupAssoc, hw]
        · have hne : (27 : Nat) :: e ≠ 27 :: k := by
            intro hc
            injection hc with h1 h2
            exact hek h2
          simp [insertKey, lookupAssoc, hne, hdup]

theorem altPass_inserts (sched : List Bytes) {t0 : KeyTable} (t : KeyTable)
    {k : Bytes} {v : KeyDownEvent}
    (hinv : keysSub t0 t) (hsafe : safeKey t0 k)
    (hk : lookupAssoc t k = some v) (hmem : k ∈ sched) :
    lookupAssoc (altPass t sched) (27 :: k) = some (withAlt v) := by
  induction sched generalizing t with
  | nil => simp at hmem
  | cons e s ih =>
    show lookupAssoc (altPass (altStep t e) s) (27 :: k) = some (withAlt v)
    by_cases hek : e = k
    · subst hek
      have hstep : altStep t e = insertKey t (27 :: e) (withAlt v) := by
        unfold altStep; rw [hk]
      rw [hstep]
      refine altPass_stable s _ ?_ hsafe ?_ ?_
      · intro j hj
        have hj' : j ∈ (27 :: e) :: keysOf t := hj
        rcases List.mem_cons.mp hj' with h | h
        · exact Or.inr (by rw [h]; rfl)
        · exact hinv j h
      · have hne : (27 : Nat) :: e ≠ e := List.cons_ne_self 27 e
        simp [insertKey, lookupAssoc, hne, hk]
      · simp [insertKey, lookupAssoc]
    · have hmem' : k ∈ s := by
        rcases List.mem_cons.mp hmem with h | h
        · exact absurd h.symm hek
        · exact h
      exact ih (altStep t e) (keysSub_altStep hinv)
        ((lookupAssoc_altStep_of_safe hinv hsafe).trans hk) hmem'

theorem mem_keysOf_altPass (sched : List Bytes) (t : KeyTable) {k : Bytes}
    (h : k ∈ keysOf (altPass t sched)) :
    k ∈ keysOf t ∨ k.head? = some 27 := by
  induction sched generalizing t with
  | nil => exact Or.inl h
  | cons e s ih =>
    have h' : k ∈ keysOf (altPass (altStep t e) s) := h
    rcases ih (altStep t e) h' with h2 | h2
    · rcases mem_keysOf_altStep h2 with h3 | h3
      · exact Or.inr (by rw [h3]; rfl)
      · exact Or.inl h3
    · exact Or.inr h2

/-! ## Shape of the keys inserted by each construction phase -/

theorem mem_keysOf_append {α β : Type} {l1 l2 : List (α × β)} {k : α} :
    k ∈ keysOf (l1 ++ l2) ↔ k ∈ keysOf l1 ∨ k ∈ keysOf l2 := by
  simp [keysOf]

theorem keysOf_reverse {α β : Type} (l : List (α × β)) :
    keysOf l.reverse = (keysOf l).reverse := by
  simp [keysOf]

theorem lookupAssoc_append_of_none {α β : Type} [DecidableEq α]
    {l t : List (α × β)} {k : α} (h : lookupAssoc l k = none) :
    lookupAssoc (l ++ t) k = lookupAssoc t k := by
  rw [lookupAssoc_append, h]

theorem lookupAssoc_append_of_some {α β : Type} [DecidableEq α]
    {l t : List (α × β)} {k : α} {v : β} (h : lookupAssoc l k = some v) :
    lookupAssoc (l ++ t) k = some v := by
  rw [lookupAssoc_append, h]

/-- First-match lookup returns the only value a key is consistently bound
to. -/
theorem lookupAssoc_of_consistent {α β : Type} [DecidableEq α]
    {l : List (α × β)} {k : α} {a : β} (hmem : (k, a) ∈ l)
    (huniq : ∀ b, (k, b) ∈ l → b = a) : lookupAssoc l k = some a := by
  induction l with
  | nil => simp at hmem
  | cons p l ih =>
    obtain ⟨x, y⟩ := p
    by_cases hx : x = k
    · subst hx
      have : y = a := huniq y (List.mem_cons_self _ _)
      rw [this]
      simp [lookupAssoc]
    · rcases List.mem_cons.mp hmem with h | h
      · exact absurd (congrArg Prod.fst h).symm hx
      · simp only [lookupAssoc, if_neg hx]
        exact ih h fun b hb => huniq b (List.mem_cons_of_mem _ hb)

/-- The tilde-family wire numbers (the keys of `csiTildeKeys`, which do not
depend on the flags). -/
def tildeKeyList : List Bytes := keysOf (csiTildeKeys 0)

set_option maxRecDepth 10000 in
theorem keysOf_csiTildeKeys (flags : Nat) :
    keysOf (csiTildeKeys flags) = tildeKeyList := rfl

/-- The keys of the base table literal (independent of the flags). -/
def baseKeyList : List Bytes := keysOf (baseTable 0)

set_option maxRecDepth 10000 in
theorem keysOf_baseTable (flags : Nat) :
    keysOf (baseTable flags) = baseKeyList := rfl

theorem goodKeyB_esc_bracket (r : Bytes) : goodKeyB (27 :: 91 :: r) = true := rfl

theorem goodKeyB_esc_O (r : Bytes) : goodKeyB (27 :: 79 :: r) = true := rfl

theorem itoa_modList_len : ∀ m ∈ modifiersList, 1 ≤ (itoa (m + 1)).length := by decide

theorem itoa_modList_inj : ∀ m1 ∈ modifiersList, ∀ m2 ∈ modifiersList,
    itoa (m1 + 1) = itoa (m2 + 1) → m1 = m2 := by decide

theorem csiFuncKeys_fst_ne_tilde : ∀ p ∈ csiFuncKeys, p.1 ≠ 126 := by decide

theorem csiFuncKeys_consistent : ∀ p ∈ csiFuncKeys, ∀ q ∈ csiFuncKeys,
    p.1 = q.1 → p.2 = q.2 := by decide

theorem tildeKeyList_facts : ∀ k ∈ tildeKeyList, k ≠ [] ∧ k.length ≤ 2 := by decide

theorem modList_getD : ∀ m : Nat, 1 ≤ m → m ≤ 15 →
    m ∈ modifiersList ∧ modifiersList.getD (m - 1) 0 = m := by
  intro m h1 h2
  interval_cases m <;> exact ⟨by decide, by decide⟩

/-- Every binding of the XTerm expansion decomposes into one of its four
families, with the key in the family's wire shape. -/
theorem xtermEntries_shape {flags : Nat} {pr : Bytes × KeyDownEvent}
    (hpr : pr ∈ xtermEntries flags) :
    ∃ m', m' ∈ modifiersList ∧
      ((∃ p ∈ csiFuncKeys,
          pr = ([27, 91, 49, 59] ++ itoa (m' + 1) ++ [p.1], { p.2 with mod := m' })) ∨
       (∃ p ∈ ss3FuncKeys,
          pr = ([27, 79] ++ itoa (m' + 1) ++ [p.1], { p.2 with mod := m' })) ∨
       (∃ p ∈ csiTildeKeys flags,
          pr = ([27, 91] ++ p.1 ++ [59] ++ itoa (m' + 1) ++ [126], { p.2 with mod := m' })) ∨
       (∃ p ∈ modifyOtherKeys,
          pr = ([27, 91, 50, 55, 59] ++ itoa (m' + 1) ++ [59] ++ itoa p.1.toNat ++ [126],
            { p.2 with mod := m' }))) := by
  unfold xtermEntries at hpr
  rcases List.mem_flatMap.mp hpr with ⟨m', hm', hseg⟩
  refine ⟨m', hm', ?_⟩
  unfold xtermEntriesFor at hseg
  rcases List.mem_append.mp hseg with h | h
  swap
  · rcases List.mem_map.mp h with ⟨p, hp, he⟩
    exact Or.inr (Or.inr (Or.inr ⟨p, hp, he.symm⟩))
  rcases List.mem_append.mp h with h | h
  swap
  · rcases List.mem_map.mp h with ⟨p, hp, he⟩
    exact Or.inr (Or.inr (Or.inl ⟨p, hp, he.symm⟩))
  rcases List.mem_append.mp h with h | h
  · rcases List.mem_map.mp h with ⟨p, hp, he⟩
    exact Or.inl ⟨p, hp, he.symm⟩
  · rcases List.mem_map.mp h with ⟨p, hp, he⟩
    exact Or.inr (Or.inl ⟨p, hp, he.symm⟩)

/-- Every key of the XTerm expansion starts with `ESC [` or `ESC O` and has
at least 4 bytes. -/
theorem xtermEntries_key_shape {flags : Nat} {j : Bytes}
    (hj : j ∈ keysOf (xtermEntries flags)) :
    4 ≤ j.length ∧ ((∃ r, j = 27 :: 91 :: r) ∨ ∃ r, j = 27 :: 79 :: r) := by
  rcases List.mem_map.mp hj with ⟨pr, hpr, hj'⟩
  subst hj'
  rcases xtermEntries_shape hpr with ⟨m', hm', hc⟩
  have hlen := itoa_modList_len m' hm'
  rcases hc with ⟨p, _, he⟩ | ⟨p, _, he⟩ | ⟨p, _, he⟩ | ⟨p, _, he⟩
  · rw [he]
    exact ⟨by simp, Or.inl ⟨49 :: 59 :: (itoa (m' + 1) ++ [p.1]), rfl⟩⟩
  · rw [he]
    refine ⟨?_, Or.inr ⟨itoa (m' + 1) ++ [p.1], rfl⟩⟩
    simp only [List.length_append, List.length_cons, List.length_singleton]
    omega
  · rw [he]
    exact ⟨by simp; omega, Or.inl ⟨p.1 ++ [59] ++ itoa (m' + 1) ++ [126], by simp⟩⟩
  · rw [he]
    exact ⟨by simp,
      Or.inl ⟨50 :: 55 :: 59 :: (itoa (m' + 1) ++ [59] ++ itoa p.1.toNat ++ [126]), by simp⟩⟩

/-- Every key of the URxvt phase is an arrow alias, a literal F-key entry,
or a tilde key with one of the three modifier suffixes. -/
theorem urxvt_key_shape {flags : Nat} {j : Bytes}
    (hj : j ∈ keysOf (urxvtEntries flags)) :
    j ∈ keysOf urxvtArrows ∨ j ∈ keysOf urxvtFKeys ∨
      ∃ k s, k ∈ tildeKeyList ∧ s ∈ ([36, 94, 64] : List Nat) ∧
        j = 27 :: 91 :: (k ++ [s]) := by
  unfold urxvtEntries at hj
  rcases mem_keysOf_append.mp hj with h | h
  swap
  · exact Or.inr (Or.inl h)
  rcases mem_keysOf_append.mp h with h | h
  · exact Or.inl h
  · rcases List.mem_map.mp h with ⟨pr, hpr, hj'⟩
    subst hj'
    unfold urxvtTilde at hpr
    rcases List.mem_flatMap.mp hpr with ⟨p, hp, hmem⟩
    have hk : p.1 ∈ tildeKeyList := by
      rw [← keysOf_csiTildeKeys flags]
      exact List.mem_map.mpr ⟨p, hp, rfl⟩
    refine Or.inr (Or.inr ⟨p.1, ?_⟩)
    fin_cases hmem
    · exact ⟨36, hk, by decide, rfl⟩
    · exact ⟨94, hk, by decide, rfl⟩
    · exact ⟨64, hk, by decide, rfl⟩

theorem good_urxvtArrows : ∀ k ∈ keysOf urxvtArrows, goodKeyB k = true := by decide

theorem good_urxvtFKeys : ∀ k ∈ keysOf urxvtFKeys, goodKeyB k = true := by decide

theorem good_baseKeys : ∀ k ∈ baseKeyList, goodKeyB k = true := by decide

/-- Every key present before the Alt pass is well-shaped: C0/SP/DEL single
byte, or ESC followed by `O` or `[`. -/
theorem good_keys_preAlt (flags : Nat) :
    ∀ k ∈ keysOf (preAlt flags), goodKeyB k = true := by
  intro k hk
  unfold preAlt at hk
  rw [insertAll_eq_append] at hk
  rcases mem_keysOf_append.mp hk with h | h
  · rw [keysOf_reverse, List.mem_reverse] at h
    rcases urxvt_key_shape h with h | h | ⟨kk, s, _, _, he⟩
    · exact good_urxvtArrows k h
    · exact good_urxvtFKeys k h
    · rw [he]; exact goodKeyB_esc_bracket _
  · unfold xtermPhase at h
    by_cases hx : flags &&& FlagNoXTerm = 0
    · rw [if_pos hx, insertAll_eq_append] at h
      rcases mem_keysOf_append.mp h with h | h
      · rw [keysOf_reverse, List.mem_reverse] at h
        rcases (xtermEntries_key_shape h).2 with ⟨r, hr⟩ | ⟨r, hr⟩
        · rw [hr]; exact goodKeyB_esc_bracket r
        · rw [hr]; exact goodKeyB_esc_O r
      · rw [keysOf_baseTable] at h
        exact good_baseKeys k h
    · rw [if_neg hx, keysOf_baseTable] at h
      exact good_baseKeys k h

/-- Sufficient conditions for a key to be absent from the URxvt phase. -/
theorem not_mem_urxvt {flags : Nat} {k : Bytes}
    (h1 : k ∉ keysOf urxvtArrows) (h2 : k ∉ keysOf urxvtFKeys)
    (h3 : ∀ kk ∈ tildeKeyList, ∀ s ∈ ([36, 94, 64] : List Nat),
      k ≠ 27 :: 91 :: (kk ++ [s])) :
    k ∉ keysOf (urxvtEntries flags) := by
  intro hk
  rcases urxvt_key_shape hk with h | h | ⟨kk, s, hkk, hs, he⟩
  exacts [h1 h, h2 h, h3 kk hkk s hs he]

/-- Sufficient conditions for a key to be absent from the XTerm phase. -/
theorem not_mem_xterm {flags : Nat} {k : Bytes}
    (h : ∀ m' ∈ modifiersList,
      (∀ p ∈ csiFuncKeys, k ≠ [27, 91, 49, 59] ++ itoa (m' + 1) ++ [p.1]) ∧
      (∀ p ∈ ss3FuncKeys, k ≠ [27, 79] ++ itoa (m' + 1) ++ [p.1]) ∧
      (∀ kk ∈ tildeKeyList, k ≠ [27, 91] ++ kk ++ [59] ++ itoa (m' + 1) ++ [126]) ∧
      (∀ p ∈ modifyOtherKeys,
        k ≠ [27, 91, 50, 55, 59] ++ itoa (m' + 1) ++ [59] ++ itoa p.1.toNat ++ [126])) :
    k ∉ keysOf (xtermEntries flags) := by
  intro hk
  rcases List.mem_map.mp hk with ⟨pr, hpr, hj'⟩
  rcases xtermEntries_shape hpr with ⟨m', hm', hc⟩
  obtain ⟨hA, hB, hC, hD⟩ := h m' hm'
  rcases hc with ⟨p, hp, he⟩ | ⟨p, hp, he⟩ | ⟨p, hp, he⟩ | ⟨p, hp, he⟩
  · exact hA p hp (by rw [← hj', he])
  · exact hB p hp (by rw [← hj', he])
  · refine hC p.1 ?_ (by rw [← hj', he])
    rw [← keysOf_csiTildeKeys flags]
    exact List.mem_map.mpr ⟨p, hp, rfl⟩
  · exact hD p hp (by rw [← hj', he])

/-- When a key is in neither the URxvt nor the XTerm phase, its binding in
the pre-Alt table is its base-table binding. -/
theorem lookupAssoc_preAlt_eq_base (flags : Nat) (k : Bytes)
    (hu : k ∉ keysOf (urxvtEntries flags))
    (hxk : k ∉ keysOf (xtermEntries flags)) :
    lookupAssoc (preAlt flags) k = lookupAssoc (baseTable flags) k := by
  unfold preAlt
  rw [insertAll_eq_append,
    lookupAssoc_append_of_none (lookupAssoc_eq_none_of_not_mem _ _ (by
      rw [keysOf_reverse, List.mem_reverse]; exact hu))]
  unfold xtermPhase
  by_cases hx : flags &&& FlagNoXTerm = 0
  · rw [if_pos hx, insertAll_eq_append,
      lookupAssoc_append_of_none (lookupAssoc_eq_none_of_not_mem _ _ (by
        rw [keysOf_reverse, List.mem_reverse]; exact hxk))]
  · rw [if_neg hx]

/-- The CSI-function entry for modifier `m` and final `f` is the one
binding of its key anywhere in the XTerm expansion. -/
theorem lookupAssoc_xterm_csiFunc (flags m f : Nat) (sym : KeySym)
    (hm : m ∈ modifiersList)
    (hf : (f, ({ sym := sym } : KeyDownEvent)) ∈ csiFuncKeys) :
    lookupAssoc ((xtermEntries flags).reverse) ([27, 91, 49, 59] ++ itoa (m + 1) ++ [f]) =
      some ({ sym := sym, mod := m } : KeyDownEvent) := by
  apply lookupAssoc_of_consistent
  · rw [List.mem_reverse]
    unfold xtermEntries
    refine List.mem_flatMap.mpr ⟨m, hm, ?_⟩
    unfold xtermEntriesFor
    refine List.mem_append.mpr (Or.inl (List.mem_append.mpr (Or.inl
      (List.mem_append.mpr (Or.inl ?_)))))
    exact List.mem_map.mpr ⟨(f, { sym := sym }), hf, rfl⟩
  · intro b hb
    rw [List.mem_reverse] at hb
    rcases xtermEntries_shape hb with ⟨m', hm', hc⟩
    rcases hc with ⟨p, hp, he⟩ | ⟨p, hp, he⟩ | ⟨p, hp, he⟩ | ⟨p, hp, he⟩ <;>
      rw [Prod.mk.injEq] at he <;> obtain ⟨hkey, hval⟩ := he
    · have h1 := List.getLast?_concat ([27, 91, 49, 59] ++ itoa (m + 1)) (a := f)
      have h2 := List.getLast?_concat ([27, 91, 49, 59] ++ itoa (m' + 1)) (a := p.1)
      rw [hkey] at h1
      rw [h1] at h2
      have hpf : p.1 = f := (Option.some_inj.mp h2).symm
      rw [hpf] at hkey
      have he' : itoa (m + 1) = itoa (m' + 1) :=
        List.append_cancel_left (List.append_cancel_right hkey)
      have hmm' : m = m' := itoa_modList_inj m hm m' hm' he'
      have hp2 : p.2 = ({ sym := sym } : KeyDownEvent) :=
        csiFuncKeys_consistent p hp (f, { sym := sym }) hf hpf
      rw [hval, hp2, ← hmm']
    · simp at hkey
    · have h1 := List.getLast?_concat ([27, 91, 49, 59] ++ itoa (m + 1)) (a := f)
      have h2 := List.getLast?_concat ([27, 91] ++ p.1 ++ [59] ++ itoa (m' + 1)) (a := 126)
      rw [hkey] at h1
      rw [h1] at h2
      exact absurd (Option.some_inj.mp h2) (csiFuncKeys_fst_ne_tilde (f, { sym := sym }) hf)
    · have h1 := List.getLast?_concat ([27, 91, 49, 59] ++ itoa (m + 1)) (a := f)
      have h2 := List.getLast?_concat
        ([27, 91, 50, 55, 59] ++ itoa (m' + 1) ++ [59] ++ itoa p.1.toNat) (a := 126)
      rw [hkey] at h1
      rw [h1] at h2
      exact absurd (Option.some_inj.mp h2) (csiFuncKeys_fst_ne_tilde (f, { sym := sym }) hf)

theorem urxvtArrows_elem3 : ∀ j ∈ keysOf urxvtArrows, j.get? 3 = none := by decide

theorem urxvtFKeys_elem3 : ∀ j ∈ keysOf urxvtFKeys, j.get? 3 ≠ some 59 := by decide

theorem tilde_elem1_ne59 : ∀ kk ∈ tildeKeyList, ∀ s ∈ ([36, 94, 64] : List Nat),
    (kk ++ [s]).get? 1 ≠ some 59 := by decide

/-- The CSI-function sequences of the XTerm expansion never collide with a
URxvt entry: URxvt keys have no `;` (59) at offset 3. -/
theorem csiFunc_seq_not_mem_urxvt (flags m f : Nat) :
    ([27, 91, 49, 59] ++ itoa (m + 1) ++ [f]) ∉ keysOf (urxvtEntries flags) := by
  have hseq3 : ([27, 91, 49, 59] ++ itoa (m + 1) ++ [f]).get? 3 = some 59 := rfl
  refine not_mem_urxvt ?_ ?_ ?_
  · intro hmem
    have h := urxvtArrows_elem3 _ hmem
    rw [hseq3] at h
    exact Option.noConfusion h
  · intro hmem
    exact urxvtFKeys_elem3 _ hmem (by rw [hseq3])
  · intro kk hkk s hs heq
    have h : ([27, 91, 49, 59] ++ itoa (m + 1) ++ [f]).get? 3 =
        (27 :: 91 :: (kk ++ [s])).get? 3 := by rw [heq]
    rw [hseq3] at h
    exact tilde_elem1_ne59 kk hkk s hs h.symm

/-- Claim C5: every entry `(seq, ev)` of the table at the start of the
Alt-duplication pass survives unchanged in the final table, and
`ESC‖seq` is bound to `ev` with Alt added. The schedule hypothesis is Go's
guarantee that a range over a map produces every entry that was present
when the iteration started. -/
theorem registerKeys_alt_duplication (flags : Nat) (sched : List Bytes)
    (_ht : flags &&& FlagNoTerminfo ≠ 0)
    (hs : ∀ j ∈ keysOf (preAlt flags), j ∈ sched)
    (k : Bytes) (v : KeyDownEvent)
    (hk : lookupAssoc (preAlt flags) k = some v) :
    lookupAssoc (registerKeys flags sched) k = some v ∧
    lookupAssoc (registerKeys flags sched) (27 :: k) = some (withAlt v) := by
  have hgood := good_keys_preAlt flags
  have hmemk := mem_keysOf_of_lookupAssoc_some hk
  have hsafe := safeKey_of_good hgood (hgood k hmemk)
  constructor
  · unfold registerKeys
    rw [lookupAssoc_altPass_of_safe sched _ (keysSub_refl _) hsafe]
    exact hk
  · exact altPass_inserts sched _ (keysSub_refl _) hsafe hk (hs k hmemk)

/-- Claim C6: with XTerm expansion enabled, `ESC [ 1 ; m+1 F` decodes to
the Phase-2 symbol of final `F` with the m-th modifier combination of the
XTerm order — the bitset whose wire encoding is `m + 1`. -/
theorem registerKeys_xterm_modifier_decode (flags : Nat) (sched : List Bytes)
    (m f : Nat) (sym : KeySym)
    (hx : flags &&& FlagNoXTerm = 0) (_ht : flags &&& FlagNoTerminfo ≠ 0)
    (hm1 : 1 ≤ m) (hm2 : m ≤ 15)
    (hf : (f, ({ sym := sym } : KeyDownEvent)) ∈ csiFuncKeys) :
    lookupAssoc (registerKeys flags sched) ([27, 91, 49, 59] ++ itoa (m + 1) ++ [f]) =
      some ({ sym := sym, mod := modifiersList.getD (m - 1) 0 } : KeyDownEvent) ∧
    modifiersList.getD (m - 1) 0 = m := by
  obtain ⟨hmm, hgetD⟩ := modList_getD m hm1 hm2
  refine ⟨?_, hgetD⟩
  rw [hgetD]
  have hgood := good_keys_preAlt flags
  have hseqgood : goodKeyB ([27, 91, 49, 59] ++ itoa (m + 1) ++ [f]) = true := rfl
  unfold registerKeys
  rw [lookupAssoc_altPass_of_safe sched _ (keysSub_refl _) (safeKey_of_good hgood hseqgood)]
  unfold preAlt
  rw [insertAll_eq_append,
    lookupAssoc_append_of_none (lookupAssoc_eq_none_of_not_mem _ _ (by
      rw [keysOf_reverse, List.mem_reverse]
      exact csiFunc_seq_not_mem_urxvt flags m f))]
  unfold xtermPhase
  rw [if_pos hx, insertAll_eq_append]
  exact lookupAssoc_append_of_some (lookupAssoc_xterm_csiFunc flags m f sym hmm hf)

/-- Witness for C5 at `FlagNoTerminfo`, the up-arrow entry `ESC [ A`. -/
theorem registerKeys_alt_duplication_witness :
    lookupAssoc (registerKeys FlagNoTerminfo (keysOf (preAlt FlagNoTerminfo))) [27, 91, 65] =
      some ({ sym := KeySym.KeyUp } : KeyDownEvent) ∧
    lookupAssoc (registerKeys FlagNoTerminfo (keysOf (preAlt FlagNoTerminfo))) [27, 27, 91, 65] =
      some ({ sym := KeySym.KeyUp, mod := Alt } : KeyDownEvent) := by
  have hk : lookupAssoc (preAlt FlagNoTerminfo) [27, 91, 65] =
      some ({ sym := KeySym.KeyUp } : KeyDownEvent) := by
    rw [lookupAssoc_preAlt_eq_base _ _
      (not_mem_urxvt (by decide) (by decide) (by decide)) (not_mem_xterm (by decide))]
    decide
  have h := registerKeys_alt_duplication FlagNoTerminfo (keysOf (preAlt FlagNoTerminfo))
    (by decide) (fun j hj => hj) [27, 91, 65] _ hk
  exact ⟨h.1, h.2⟩

/-- Witness for C6: `ESC [ 1 ; 6 A` is Up with Shift+Ctrl (m = 5). -/
theorem registerKeys_xterm_modifier_decode_witness :
    lookupAssoc (registerKeys FlagNoTerminfo []) [27, 91, 49, 59, 54, 65] =
      some ({ sym := KeySym.KeyUp, mod := modifiersList.getD 4 0 } : KeyDownEvent) ∧
    modifiersList.getD 4 0 = 5 := by
  have h := registerKeys_xterm_modifier_decode FlagNoTerminfo [] 5 65 KeySym.KeyUp
    (by decide) (by decide) (by decide) (by decide) (by decide)
  exact ⟨h.1, h.2⟩

/-- Claim C1, amended: every key of the built table is non-empty and starts
with ESC, a C0 control byte, DEL — or SP (0x20), the byte the original
claim omits. -/
theorem registerKeys_key_start_amended (flags : Nat) (sched : List Bytes) (k : Bytes)
    (_ht : flags &&& FlagNoTerminfo ≠ 0)
    (h : lookupAssoc (registerKeys flags sched) k ≠ none) :
    k ≠ [] ∧ tableKeyStartB k = true := by
  cases heq : lookupAssoc (registerKeys flags sched) k with
  | none => exact absurd heq h
  | some v =>
    have hmem := mem_keysOf_of_lookupAssoc_some heq
    rcases mem_keysOf_altPass sched _ hmem with h2 | h2
    · exact goodKeyB_tableKeyStart (good_keys_preAlt flags k h2)
    · match k, h2 with
      | a :: r, h2 =>
        have ha : a = 27 := by simpa using h2
        subst ha
        exact ⟨by simp, rfl⟩

/-- Counterexample to C1 as stated: the table binds the single byte SP
(0x20), which starts with none of ESC, C0, DEL. -/
theorem registerKeys_space_key_counterexample :
    lookupAssoc (registerKeys FlagNoTerminfo (keysOf (preAlt FlagNoTerminfo))) [32] =
      some ({ sym := KeySym.KeySpace, rune := 32 } : KeyDownEvent) ∧
    escC0DelStartB [32] = false := by
  refine ⟨?_, by decide⟩
  unfold registerKeys
  have hnt : ∀ e ∈ keysOf (preAlt FlagNoTerminfo), 27 :: e ≠ [32] := by
    intro e _ hc
    injection hc with h1 _
    exact absurd h1 (by decide)
  rw [lookupAssoc_altPass_of_not_target _ _ hnt,
    lookupAssoc_preAlt_eq_base _ _
      (not_mem_urxvt (by decide) (by decide) (by decide)) (not_mem_xterm (by decide))]
  decide

set_option maxRecDepth 40000 in
/-- Witness for the amended C1, at the single-byte ESC key. -/
theorem registerKeys_key_start_witness :
    [27] ≠ ([] : Bytes) ∧ tableKeyStartB [27] = true := by
  apply registerKeys_key_start_amended FlagNoTerminfo [] [27] (by decide)
  have h : lookupAssoc (registerKeys FlagNoTerminfo []) [27] =
      some ({ sym := KeySym.KeyEscape } : KeyDownEvent) := by
    show lookupAssoc (preAlt FlagNoTerminfo) [27] = _
    rw [lookupAssoc_preAlt_eq_base _ _
      (not_mem_urxvt (by decide) (by decide) (by decide)) (not_mem_xterm (by decide))]
    decide
  rw [h]
  simp

/-! ## The Go map-range schedules of the Alt pass -/

theorem goAdm_cons_mem {snap created : List Bytes} {e : Bytes} {rest : List Bytes}
    (h : e ∈ snap) :
    goAdm snap created (e :: rest) = goAdm (snap.erase e) ((27 :: e) :: created) rest := by
  simp only [goAdm]
  rw [if_pos h]

theorem goAdm_nil_cons_created {created : List Bytes} {e : Bytes} {rest : List Bytes}
    (h : e ∈ created) :
    goAdm [] created (e :: rest) = goAdm [] ((27 :: e) :: created.erase e) rest := by
  simp only [goAdm]
  rw [if_neg (List.not_mem_nil e), if_pos h]

theorem goAdm_consume : ∀ (s c r : List Bytes), s.Nodup →
    goAdm s c (s ++ r) = goAdm [] (s.reverse.map (fun x => 27 :: x) ++ c) r
  | [], c, r, _ => by simp
  | a :: s, c, r, hnd => by
    rw [List.cons_append, goAdm_cons_mem (List.mem_cons_self a s), List.erase_cons_head,
      goAdm_consume s ((27 :: a) :: c) r (List.Nodup.of_cons hnd)]
    have harr : s.reverse.map (fun x => 27 :: x) ++ ((27 :: a) :: c) =
        (a :: s).reverse.map (fun x => 27 :: x) ++ c := by
      simp
    rw [harr]

/-- The snapshot-only schedule is Go-admissible. -/
theorem goAdmissible_self (t : KeyTable) : goAdmissible t ((keysOf t).dedup) = true := by
  unfold goAdmissible
  have h := goAdm_consume ((keysOf t).dedup) [] [] (List.nodup_dedup _)
  rw [List.append_nil] at h
  rw [h]
  rfl

/-- The schedule that additionally revisits a created `ESC‖y` entry after
the snapshot is also Go-admissible. -/
theorem goAdmissible_extra (t : KeyTable) (y : Bytes) (hy : y ∈ keysOf t) :
    goAdmissible t ((keysOf t).dedup ++ [27 :: y]) = true := by
  unfold goAdmissible
  rw [goAdm_consume _ [] _ (List.nodup_dedup _)]
  rw [goAdm_nil_cons_created (by
    rw [List.append_nil]
    exact List.mem_map.mpr ⟨y, List.mem_reverse.mpr (List.mem_dedup.mpr hy), rfl⟩)]
  rfl

theorem altPass_append (t : KeyTable) (l1 l2 : List Bytes) :
    altPass t (l1 ++ l2) = altPass (altPass t l1) l2 :=
  List.foldl_append _ _ _ _

theorem altPass_single (t : KeyTable) (x : Bytes) : altPass t [x] = altStep t x := rfl

/-- Visiting a key currently bound to `v` makes `ESC‖k` bound to
`v` with Alt. -/
theorem lookupAssoc_altStep_self {t : KeyTable} {k : Bytes} {v : KeyDownEvent}
    (h : lookupAssoc t k = some v) :
    lookupAssoc (altStep t k) (27 :: k) = some (withAlt v) := by
  unfold altStep
  rw [h]
  simp [insertKey, lookupAssoc]

/-- Any base-table key is a key of the pre-Alt table. -/
theorem mem_preAlt_of_base (flags : Nat) (k : Bytes) (h : k ∈ baseKeyList) :
    k ∈ keysOf (preAlt flags) := by
  unfold preAlt
  rw [insertAll_eq_append]
  refine mem_keysOf_append.mpr (Or.inr ?_)
  unfold xtermPhase
  by_cases hx : flags &&& FlagNoXTerm = 0
  · rw [if_pos hx, insertAll_eq_append]
    exact mem_keysOf_append.mpr (Or.inr (by rw [keysOf_baseTable]; exact h))
  · rw [if_neg hx, keysOf_baseTable]
    exact h

set_option maxRecDepth 40000 in
/-- Claim C7 evaluation: two Go-admissible iteration schedules of the Alt
pass — the snapshot order, and the snapshot order followed by the created
entry `ESC ESC O A` — produce tables with different key sets: only the
second contains `ESC ESC ESC O A`. -/
theorem registerKeys_schedule_nondeterminism :
    goAdmissible (preAlt FlagNoTerminfo) ((keysOf (preAlt FlagNoTerminfo)).dedup) = true ∧
    goAdmissible (preAlt FlagNoTerminfo)
      ((keysOf (preAlt FlagNoTerminfo)).dedup ++ [[27, 27, 79, 65]]) = true ∧
    lookupAssoc (registerKeys FlagNoTerminfo ((keysOf (preAlt FlagNoTerminfo)).dedup))
      [27, 27, 27, 79, 65] = none ∧
    lookupAssoc (registerKeys FlagNoTerminfo
        ((keysOf (preAlt FlagNoTerminfo)).dedup ++ [[27, 27, 79, 65]]))
      [27, 27, 27, 79, 65] ≠ none := by
  have hyMem : [27, 79, 65] ∈ keysOf (preAlt FlagNoTerminfo) :=
    mem_preAlt_of_base _ _ (by decide)
  refine ⟨goAdmissible_self _, goAdmissible_extra _ [27, 79, 65] hyMem, ?_, ?_⟩
  · unfold registerKeys
    have hnt : ∀ e ∈ (keysOf (preAlt FlagNoTerminfo)).dedup,
        27 :: e ≠ [27, 27, 27, 79, 65] := by
      intro e he hc
      injection hc with _ h2
      subst h2
      have := good_keys_preAlt FlagNoTerminfo _ (List.mem_dedup.mp he)
      exact absurd this (by decide)
    rw [lookupAssoc_altPass_of_not_target _ _ hnt]
    refine lookupAssoc_eq_none_of_not_mem _ _ fun hmem => ?_
    have := good_keys_preAlt FlagNoTerminfo _ hmem
    exact absurd this (by decide)
  · obtain ⟨vy, hvy⟩ := lookupAssoc_isSome_of_mem_keysOf hyMem
    have hsafe : safeKey (preAlt FlagNoTerminfo) [27, 79, 65] :=
      safeKey_of_good (good_keys_preAlt _) (by decide)
    have hT1 : lookupAssoc
        (altPass (preAlt FlagNoTerminfo) ((keysOf (preAlt FlagNoTerminfo)).dedup))
        [27, 27, 79, 65] = some (withAlt vy) :=
      altPass_inserts ((keysOf (preAlt FlagNoTerminfo)).dedup) _
        (keysSub_refl _) hsafe hvy (List.mem_dedup.mpr hyMem)
    unfold registerKeys
    rw [altPass_append, altPass_single, lookupAssoc_altStep_self hT1]
    simp

/-- Claim C2 evaluation: a table-hit press record with repeat count 3 and
Ctrl held expands to three KeyDown events whose `isRepeat` flag is FALSE —
the source builds the KeyDown event before assigning `k.IsRepeat`, so the
claim's `is-repeat = true` does not hold on press records. -/
theorem parseWin32InputKeyEvent_repeat_no_isRepeat :
    parseWin32InputKeyEvent VK_RETURN 0 13 true
        { leftCtrl := true, rightCtrl := true } 3 =
      some (Event.multi (List.replicate 3
        (Event.keyDown ({ sym := KeySym.KeyEnter, mod := Ctrl } : KeyDownEvent)))) ∧
    ({ sym := KeySym.KeyEnter, mod := Ctrl } : KeyDownEvent) ≠
      { sym := KeySym.KeyEnter, mod := Ctrl, isRepeat := true } :=
  ⟨rfl, by decide⟩

/-- Claim C4 evaluation: on `rgb:1234/5678/9abc` the decoder keeps the LOW
byte of each component (`uint8(r)` truncation), not the most significant 8
bits the claim specifies (`specMsb8` is the claim's reading). -/
theorem xParseColor_low_bits_divergence :
    xParseColor [114, 103, 98, 58, 49, 50, 51, 52, 47, 53, 54, 55, 56, 47, 57, 97, 98, 99] =
      ⟨0x34, 0x78, 0xbc, 255⟩ ∧
    specMsb8 [49, 50, 51, 52] = 0x12 ∧ (0x34 : Nat) ≠ 0x12 :=
  ⟨by decide, by decide, by decide⟩

/-- Claim C10: when the additional-button bit 0x80 is set (even together
with the wheel bit 0x40), the button comes from the additional-button
region and is never a wheel button. -/
theorem parseMouseButton_additional_priority (b : Nat)
    (hadd : b &&& 128 ≠ 0) (_hw : b &&& 64 ≠ 0) :
    (parseMouseButton b).btn = mouseButtonBackward + (b &&& 3) ∧
    isWheel (parseMouseButton b).btn = false := by
  have h3 : b &&& 3 ≤ 3 := Nat.and_le_right
  unfold parseMouseButton parseMouseButtonRegion
  rw [if_pos hadd]
  refine ⟨rfl, ?_⟩
  show isWheel (mouseButtonBackward + (b &&& 3)) = false
  unfold isWheel mouseButtonBackward mouseButtonWheelUp mouseButtonWheelRight
  rw [if_neg]
  omega

/-- Witness for C10 at b = 192 (0x80 and 0x40 both set). -/
theorem parseMouseButton_additional_priority_witness :
    (parseMouseButton 192).btn = mouseButtonBackward + (192 &&& 3) ∧
    isWheel (parseMouseButton 192).btn = false :=
  parseMouseButton_additional_priority 192 (by decide) (by decide)

/-- Claim C8: the X10 decoder subtracts the 32 offset from the button byte
only when the byte is at least 32, always subtracts 33 from both
coordinate bytes, and therefore yields a negative coordinate whenever the
wire byte is below 33. -/
theorem parseX10MouseEvent_offsets (buf : Bytes) (b xb yb : Nat) (rest : Bytes)
    (h : buf.drop 3 = b :: xb :: yb :: rest) :
    ∃ m : Mouse,
      (parseX10MouseEvent buf = some (Event.mouseMove m) ∨
       parseX10MouseEvent buf = some (Event.mouseUp m) ∨
       parseX10MouseEvent buf = some (Event.mouseDown m)) ∧
      m.x = (xb : Int) - 33 ∧ m.y = (yb : Int) - 33 ∧
      m.button = (parseMouseButton (if 32 ≤ b then b - 32 else b)).btn ∧
      m.mod = (parseMouseButton (if 32 ≤ b then b - 32 else b)).mod ∧
      (xb < 33 → m.x < 0) ∧ (yb < 33 → m.y < 0) := by
  simp only [parseX10MouseEvent, h, x10MouseByteOffset]
  refine ⟨⟨(xb : Int) - 32 - 1, (yb : Int) - 32 - 1,
    (parseMouseButton (if 32 ≤ b then b - 32 else b)).btn,
    (parseMouseButton (if 32 ≤ b then b - 32 else b)).mod⟩, ?_,
    by show (xb : Int) - 32 - 1 = (xb : Int) - 33; omega,
    by show (yb : Int) - 32 - 1 = (yb : Int) - 33; omega,
    rfl, rfl,
    by intro hx; show (xb : Int) - 32 - 1 < 0; omega,
    by intro hy; show (yb : Int) - 32 - 1 < 0; omega⟩
  by_cases hmot : (parseMouseButton (if 32 ≤ b then b - 32 else b)).isMotion
  · exact Or.inl (by rw [if_pos hmot]; rfl)
  · by_cases hrel : (parseMouseButton (if 32 ≤ b then b - 32 else b)).isRelease
    · exact Or.inr (Or.inl (by rw [if_neg hmot, if_pos hrel]; rfl))
    · exact Or.inr (Or.inr (by rw [if_neg hmot, if_neg hrel]; rfl))

/-- Witness for C8: raw bytes 0/0/0 after `ESC [ M` give button byte 0
(below 32, kept as-is) and coordinates −33. -/
theorem parseX10MouseEvent_offsets_witness :
    ∃ m : Mouse,
      (parseX10MouseEvent [27, 91, 77, 0, 0, 0] = some (Event.mouseMove m) ∨
       parseX10MouseEvent [27, 91, 77, 0, 0, 0] = some (Event.mouseUp m) ∨
       parseX10MouseEvent [27, 91, 77, 0, 0, 0] = some (Event.mouseDown m)) ∧
      m.x = (0 : Int) - 33 ∧ m.y = (0 : Int) - 33 ∧
      m.button = (parseMouseButton (if 32 ≤ 0 then 0 - 32 else 0)).btn ∧
      m.mod = (parseMouseButton (if 32 ≤ 0 then 0 - 32 else 0)).mod ∧
      ((0 : Nat) < 33 → m.x < 0) ∧ ((0 : Nat) < 33 → m.y < 0) :=
  parseX10MouseEvent_offsets [27, 91, 77, 0, 0, 0] 0 0 0 [] rfl

/-! ## SGR wheel decoding (C3) -/

theorem munch_all_digits (ds : Bytes) (c : Nat) (r : Bytes)
    (hds : ∀ d ∈ ds, isDigitB d = true) (hc : isDigitB c = false) :
    munch (ds ++ c :: r) = (ds, c :: r) := by
  induction ds with
  | nil => simp [munch, hc]
  | cons d ds ih =>
    have hd : isDigitB d = true := hds d (List.mem_cons_self _ _)
    have ih' := ih fun x hx => hds x (List.mem_cons_of_mem _ hx)
    simp only [List.cons_append, munch, hd, if_true]
    show (d :: (munch (ds ++ c :: r)).1, (munch (ds ++ c :: r)).2) = (d :: ds, c :: r)
    rw [ih']

theorem sgrMatchAt_wellformed (d1 d2 d3 rest : Bytes) (rel : Bool)
    (h1 : d1 ≠ []) (h2 : d2 ≠ []) (h3 : d3 ≠ [])
    (ha1 : ∀ d ∈ d1, isDigitB d = true) (ha2 : ∀ d ∈ d2, isDigitB d = true)
    (ha3 : ∀ d ∈ d3, isDigitB d = true) :
    sgrMatchAt (d1 ++ 59 :: (d2 ++ 59 :: (d3 ++ (if rel then 109 else 77) :: rest))) =
      some (goAtoi d1, goAtoi d2, goAtoi d3, rel) := by
  cases rel <;>
    simp only [if_true, if_false, Bool.false_eq_true, Bool.true_eq_false] <;>
    rw [sgrMatchAt, munch_all_digits d1 _ _ ha1 (by decide)] <;>
    simp only [] <;>
    rw [if_neg h1] <;>
    rw [munch_all_digits d2 _ _ ha2 (by decide)] <;>
    simp only [] <;>
    rw [if_neg h2] <;>
    rw [munch_all_digits d3 _ _ ha3 (by decide)] <;>
    simp only [] <;>
    rw [if_neg h3]

theorem sgrFind_wellformed (d1 d2 d3 rest : Bytes) (rel : Bool)
    (h1 : d1 ≠ []) (h2 : d2 ≠ []) (h3 : d3 ≠ [])
    (ha1 : ∀ d ∈ d1, isDigitB d = true) (ha2 : ∀ d ∈ d2, isDigitB d = true)
    (ha3 : ∀ d ∈ d3, isDigitB d = true) :
    sgrFind (d1 ++ 59 :: (d2 ++ 59 :: (d3 ++ (if rel then 109 else 77) :: rest))) =
      some (goAtoi d1, goAtoi d2, goAtoi d3, rel) := by
  obtain ⟨a1, t1, rfl⟩ := List.exists_cons_of_ne_nil h1
  rw [List.cons_append, sgrFind, ← List.cons_append,
    sgrMatchAt_wellformed (a1 :: t1) d2 d3 rest rel h1 h2 h3 ha1 ha2 ha3]

theorem parseMouseButtonRegion_wheel {b : Nat} (hw : b &&& 64 ≠ 0) (hadd : b &&& 128 = 0) :
    parseMouseButtonRegion b = (mouseButtonWheelUp + (b &&& 3), false) := by
  unfold parseMouseButtonRegion
  rw [if_neg (show ¬b &&& 128 ≠ 0 by simp [hadd]), if_pos hw]

theorem parseMouseButton_wheel {b : Nat} (hw : b &&& 64 ≠ 0) (hadd : b &&& 128 = 0) :
    (parseMouseButton b).btn = mouseButtonWheelUp + (b &&& 3) ∧
    (parseMouseButton b).isMotion = false ∧
    isWheel (parseMouseButton b).btn = true := by
  have h3 : b &&& 3 ≤ 3 := Nat.and_le_right
  have hwheel : isWheel (mouseButtonWheelUp + (b &&& 3)) = true := by
    unfold isWheel mouseButtonWheelUp mouseButtonWheelRight
    rw [if_pos]
    omega
  have hr := parseMouseButtonRegion_wheel hw hadd
  unfold parseMouseButton
  rw [hr]
  refine ⟨rfl, ?_, ?_⟩
  · show (decide (b &&& 32 ≠ 0) && !isWheel (mouseButtonWheelUp + (b &&& 3))) = false
    rw [hwheel]
    simp
  · show isWheel (mouseButtonWheelUp + (b &&& 3)) = true
    exact hwheel

/-- Claim C3, amended: an SGR button code with the wheel bit 0x40 set and
the additional-button bit 0x80 CLEAR always decodes as MouseDown — with
both M and m terminators — and its button is a wheel button. -/
theorem parseSGRMouseEvent_wheel_mousedown (d1 d2 d3 : Bytes) (rel : Bool)
    (h1 : d1 ≠ []) (h2 : d2 ≠ []) (h3 : d3 ≠ [])
    (ha1 : ∀ d ∈ d1, isDigitB d = true) (ha2 : ∀ d ∈ d2, isDigitB d = true)
    (ha3 : ∀ d ∈ d3, isDigitB d = true)
    (hw : goAtoi d1 &&& 64 ≠ 0) (hadd : goAtoi d1 &&& 128 = 0) :
    parseSGRMouseEvent
        (27 :: 91 :: 60 :: (d1 ++ 59 :: (d2 ++ 59 :: (d3 ++ [if rel then 109 else 77])))) =
      Event.mouseDown ⟨(goAtoi d2 : Int) - 1, (goAtoi d3 : Int) - 1,
        mouseButtonWheelUp + (goAtoi d1 &&& 3), (parseMouseButton (goAtoi d1)).mod⟩ := by
  obtain ⟨hbtn, hmot, hwheel⟩ := parseMouseButton_wheel hw hadd
  unfold parseSGRMouseEvent
  rw [show (27 :: 91 :: 60 :: (d1 ++ 59 :: (d2 ++ 59 :: (d3 ++ [if rel then 109 else 77])))).drop 3
    = d1 ++ 59 :: (d2 ++ 59 :: (d3 ++ [if rel then 109 else 77])) from rfl]
  rw [sgrFind_wellformed d1 d2 d3 [] rel h1 h2 h3 ha1 ha2 ha3]
  have hwheel2 : isWheel (mouseButtonWheelUp + (goAtoi d1 &&& 3)) = true := hbtn ▸ hwheel
  simp only [hmot, hbtn, hwheel2, Bool.not_true, Bool.not_false, Bool.true_and,
    Bool.false_and, Bool.and_false, Bool.and_true, if_false, Bool.false_eq_true, reduceIte]

/-- Counterexample to C3 as stated: b = 192 has the wheel bit 0x40 set,
yet `ESC [ < 192 ; 1 ; 1 m` decodes as MouseUp (the 0x80 bit wins and the
button is Backward, not a wheel). -/
theorem parseSGRMouseEvent_wheel_claim_counterexample :
    (192 : Nat) &&& 64 ≠ 0 ∧
    parseSGRMouseEvent [27, 91, 60, 49, 57, 50, 59, 49, 59, 49, 109] =
      Event.mouseUp ⟨0, 0, mouseButtonBackward, 0⟩ :=
  ⟨by decide, rfl⟩

/-- Witness for the amended C3: `ESC [ < 64 ; 10 ; 5 m` (release
terminator) still decodes as MouseDown with the WheelUp button. -/
theorem parseSGRMouseEvent_wheel_witness :
    parseSGRMouseEvent [27, 91, 60, 54, 52, 59, 49, 48, 59, 53, 109] =
      Event.mouseDown ⟨9, 4, 4, 0⟩ := by
  have h := parseSGRMouseEvent_wheel_mousedown [54, 52] [49, 48] [53] true
    (by decide) (by decide) (by decide) (by decide) (by decide) (by decide)
    (by decide) (by decide)
  exact h.trans (congrArg Event.mouseDown (by decide))

/-! ## XTerm modifyOtherKeys totality and decoding (C9) -/

theorem mem_of_lookupAssoc_some {α β : Type} [DecidableEq α] {l : List (α × β)} {k : α}
    {v : β} (h : lookupAssoc l k = some v) : (k, v) ∈ l := by
  induction l with
  | nil => simp [lookupAssoc] at h
  | cons p l ih =>
    obtain ⟨a, b⟩ := p
    by_cases hk : a = k
    · subst hk
      simp only [lookupAssoc, if_pos rfl] at h
      injection h with h
      subst h
      exact List.mem_cons_self _ _
    · simp only [lookupAssoc, if_neg hk] at h
      exact List.mem_cons_of_mem _ (ih h)

theorem modifyOtherKeys_isRepeat : ∀ p ∈ modifyOtherKeys, p.2.isRepeat = false := by decide

/-- Claim C9, amended: the parser is total exactly when `params` has at
least three groups with non-empty second and third group; under that
precondition it always returns a KeyDown (never KeyUp), the modifier is
the uint-wraparound of `params[1][0] - 1` (for `1 ≤ m < 2^64` this is
`m - 1`), and for a code below `2^31` that is not in the
`modifyOtherKeys` table the rune is the raw code point. (Codes at or above
`2^31` are truncated by the Go `rune` conversion — the amendment the
counterexample forces.) -/
theorem parseXTermModifyOtherKeys_amended (params : List (List Nat)) :
    ((parseXTermModifyOtherKeys params).isSome ↔ mokPrecond params) ∧
    (mokPrecond params →
      ∃ k, parseXTermModifyOtherKeys params = some (Event.keyDown k) ∧
        k.isRepeat = false ∧
        k.mod = ((params.getD 1 []).headD 0 + (2 ^ 64 - 1)) % 2 ^ 64 ∧
        (1 ≤ (params.getD 1 []).headD 0 → (params.getD 1 []).headD 0 < 2 ^ 64 →
          k.mod = (params.getD 1 []).headD 0 - 1) ∧
        ((params.getD 2 []).headD 0 < 2 ^ 31 →
          lookupAssoc modifyOtherKeys (((params.getD 2 []).headD 0 : Nat) : Int) = none →
          k.rune = (((params.getD 2 []).headD 0 : Nat) : Int))) := by
  match params with
  | [] =>
    exact ⟨by simp [parseXTermModifyOtherKeys, mokPrecond], by simp [mokPrecond]⟩
  | [p0] =>
    exact ⟨by simp [parseXTermModifyOtherKeys, mokPrecond], by simp [mokPrecond]⟩
  | [p0, p1] =>
    refine ⟨?_, ?_⟩
    · cases p1 <;> simp [parseXTermModifyOtherKeys, mokPrecond]
    · simp [mokPrecond]
  | p0 :: p1 :: p2 :: ps =>
    match p1, p2 with
    | [], p2 =>
      refine ⟨by simp [parseXTermModifyOtherKeys, mokPrecond], ?_⟩
      intro hpre
      exact absurd rfl hpre.2.1
    | m :: t1, [] =>
      refine ⟨by simp [parseXTermModifyOtherKeys, mokPrecond], ?_⟩
      intro hpre
      exact absurd rfl hpre.2.2
    | m :: t1, c :: t2 =>
      constructor
      · constructor
        · intro _
          exact ⟨by simp, by simp, by simp⟩
        · intro _
          simp [parseXTermModifyOtherKeys]
          cases lookupAssoc modifyOtherKeys (toInt32 c) <;> simp
      · intro _
        have hmod : ∀ k0 : KeyDownEvent,
            ({ k0 with mod := (m + (2 ^ 64 - 1)) % 2 ^ 64 } : KeyDownEvent).mod =
              (m + (2 ^ 64 - 1)) % 2 ^ 64 := fun _ => rfl
        have hgd1 : ((p0 :: (m :: t1) :: (c :: t2) :: ps).getD 1 []).headD 0 = m := rfl
        have hgd2 : ((p0 :: (m :: t1) :: (c :: t2) :: ps).getD 2 []).headD 0 = c := rfl
        rw [hgd1, hgd2]
        cases hlk : lookupAssoc modifyOtherKeys (toInt32 c) with
        | some k0 =>
          refine ⟨{ k0 with mod := (m + (2 ^ 64 - 1)) % 2 ^ 64 }, ?_, ?_, rfl, ?_, ?_⟩
          · show (match lookupAssoc modifyOtherKeys (toInt32 c) with
              | some k => some (Event.keyDown { k with mod := (m + (2 ^ 64 - 1)) % 2 ^ 64 })
              | none => some (Event.keyDown
                  { sym := KeySym.KeyNone, rune := toInt32 c,
                    mod := (m + (2 ^ 64 - 1)) % 2 ^ 64 })) = _
            rw [hlk]
          · show k0.isRepeat = false
            exact modifyOtherKeys_isRepeat _ (mem_of_lookupAssoc_some hlk)
          · intro hm1 hm2
            show (m + (2 ^ 64 - 1)) % 2 ^ 64 = m - 1
            omega
          · intro hc31 hnone
            have htr : toInt32 c = (c : Int) := by
              unfold toInt32
              rw [Nat.mod_eq_of_lt (by omega)]
              rw [if_pos hc31]
            rw [htr] at hlk
            rw [hlk] at hnone
            exact Option.noConfusion hnone
        | none =>
          refine ⟨⟨KeySym.KeyNone, toInt32 c, (m + (2 ^ 64 - 1)) % 2 ^ 64, false⟩,
            ?_, rfl, rfl, ?_, ?_⟩
          · show (match lookupAssoc modifyOtherKeys (toInt32 c) with
              | some k => some (Event.keyDown { k with mod := (m + (2 ^ 64 - 1)) % 2 ^ 64 })
              | none => some (Event.keyDown
                  { sym := KeySym.KeyNone, rune := toInt32 c,
                    mod := (m + (2 ^ 64 - 1)) % 2 ^ 64 })) = _
            rw [hlk]
          · intro hm1 hm2
            show (m + (2 ^ 64 - 1)) % 2 ^ 64 = m - 1
            omega
          · intro hc31 _
            show toInt32 c = (c : Int)
            unfold toInt32
            rw [Nat.mod_eq_of_lt (by omega)]
            rw [if_pos hc31]

/-- Counterexample to C9 as stated: code `2^32` is not in the
`modifyOtherKeys` table, yet the event's character is the int32-truncated
0, not the raw code point `2^32`. -/
theorem parseXTermModifyOtherKeys_rune_counterexample :
    mokPrecond [[27], [1], [4294967296]] ∧
    parseXTermModifyOtherKeys [[27], [1], [4294967296]] =
      some (Event.keyDown ({ sym := KeySym.KeyNone, rune := 0, mod := 0 } : KeyDownEvent)) ∧
    ((4294967296 : Nat) : Int) ≠ 0 :=
  ⟨by decide, rfl, by decide⟩

/-- Witness for the amended C9 at `params = [[27], [6], [1]]`. -/
theorem parseXTermModifyOtherKeys_witness :
    mokPrecond [[27], [6], [1]] ∧
    (parseXTermModifyOtherKeys [[27], [6], [1]]).isSome :=
  ⟨by decide, ((parseXTermModifyOtherKeys_amended [[27], [6], [1]]).1).mpr (by decide)⟩

end Input
